import Mathlib

/-!
Verification development for the KarpelesLab/squashfs library.

The Go source is shallowly embedded: byte strings are `List Nat` (each
element a byte value), machine integers are `Nat` with explicit `% 2^w`
where overflow matters, and fallible operations return `Except`/`Option`.
A Go `panic` (slice/index out of range) is modelled as a distinguished
outcome, never silently ignored.
-/

namespace SquashFS

/-! ## Byte-level helpers (encoding/binary) -/

/-- Little-endian value of a byte list (least significant byte first). -/
def leVal : List Nat → Nat
| [] => 0
| b :: r => b + 256 * leVal r

/-- Big-endian value of a byte list. -/
def beVal (l : List Nat) : Nat := leVal l.reverse

/-- Byte order selected by the superblock magic (binary.LittleEndian /
binary.BigEndian in Go). -/
inductive SqOrder
| le
| be
deriving DecidableEq

/-- Decode a byte list with the given order. -/
def ordVal : SqOrder → List Nat → Nat
| .le, l => leVal l
| .be, l => beVal l

/-- `order.UintN(data[i:i+k])`: decode `k` bytes at offset `i`. -/
def fieldAt (o : SqOrder) (d : List Nat) (i k : Nat) : Nat :=
  ordVal o ((d.drop i).take k)

/-- Little-endian encoding of `v` in `k` bytes (binary.Write with
LittleEndian, used by the writer which always emits little-endian). -/
def leBytes : Nat → Nat → List Nat
| 0, _ => []
| k + 1, v => v % 256 :: leBytes k (v / 256)

/-! ## Superblock decoding (super.go: UnmarshalBinary, New) -/

/-- Error values from errors.go plus the `fs` package sentinels used by
the library. -/
inductive SqErr
| invalidFile
| invalidSuper
| invalidVersion
| inodeNotExported
| notDirectory
| tooManySymlinks
| notExist
| invalid
| eof
| unexpectedEOF
| ioError
| formatErr
deriving DecidableEq

/-- The decoded `Superblock` header fields (super.go).  Raw unsigned
values are kept as `Nat`; `ModTime` keeps the raw uint32 reading. -/
structure Super where
  order : SqOrder
  magic : Nat
  inodeCnt : Nat
  modTime : Nat
  blockSize : Nat
  fragCount : Nat
  comp : Nat
  blockLog : Nat
  flags : Nat
  idCount : Nat
  vMajor : Nat
  vMinor : Nat
  rootInode : Nat
  bytesUsed : Nat
  idTableStart : Nat
  xattrIdTableStart : Nat
  inodeTableStart : Nat
  dirTableStart : Nat
  fragTableStart : Nat
  exportTableStart : Nat
deriving DecidableEq

/-- Field extraction of `UnmarshalBinary` once the byte order is known
(super.go lines 154-172). -/
def mkSuper (o : SqOrder) (d : List Nat) : Super :=
  { order := o
    magic := fieldAt o d 0 4
    inodeCnt := fieldAt o d 4 4
    modTime := fieldAt o d 8 4
    blockSize := fieldAt o d 12 4
    fragCount := fieldAt o d 16 4
    comp := fieldAt o d 20 2
    blockLog := fieldAt o d 22 2
    flags := fieldAt o d 24 2
    idCount := fieldAt o d 26 2
    vMajor := fieldAt o d 28 2
    vMinor := fieldAt o d 30 2
    rootInode := fieldAt o d 32 8
    bytesUsed := fieldAt o d 40 8
    idTableStart := fieldAt o d 48 8
    xattrIdTableStart := fieldAt o d 56 8
    inodeTableStart := fieldAt o d 64 8
    dirTableStart := fieldAt o d 72 8
    fragTableStart := fieldAt o d 80 8
    exportTableStart := fieldAt o d 88 8 }

/-- `Superblock.UnmarshalBinary` (super.go lines 140-187): length check,
magic switch ("hsqs" little-endian, "sqsh" big-endian), field decoding,
magic invariant, and the `1 << BlockLog == BlockSize` invariant (the
shift is Go uint32 arithmetic, hence the `% 2^32`). -/
def unmarshalBinary (d : List Nat) : Except SqErr Super :=
  if d.length ≠ 96 then .error .invalidSuper
  else
    let hd := d.take 4
    if hd ≠ [104, 115, 113, 115] ∧ hd ≠ [115, 113, 115, 104] then .error .invalidFile
    else
      let o : SqOrder := if hd = [104, 115, 113, 115] then .le else .be
      let s := mkSuper o d
      if s.magic ≠ 0x73717368 then .error .invalidFile
      else if (1 <<< s.blockLog) % 2 ^ 32 ≠ s.blockSize then .error .invalidSuper
      else .ok s

/-- The validation prefix of `New` (super.go lines 58-75): decode the
96-byte header and reject any version other than 4.0.  The remaining
steps of `New` (root-inode load, ID-table read) are modelled separately
as part of the whole-image reader. -/
def newVersionGate (d : List Nat) : Except SqErr Super :=
  match unmarshalBinary d with
  | .error e => .error e
  | .ok s => if s.vMajor ≠ 4 ∨ s.vMinor ≠ 0 then .error .invalidVersion else .ok s

/-! ## ID lookups (inode.go: GetUid, GetGid)

Go `idTable[idx]` panics when the index is out of range; the result type
is therefore `Option`: `none` models the panic. -/

/-- `Inode.GetUid` (inode.go lines 597-602): guarded by
`len(idTable) >= int(UidIdx)`, then indexes `idTable[UidIdx]`. -/
def getUid (idTable : List Nat) (uidIdx : Nat) : Option Nat :=
  if idTable.length ≥ uidIdx then idTable.get? uidIdx else some 0

/-- `Inode.GetGid` (inode.go lines 605-610): same shape as `GetUid`. -/
def getGid (idTable : List Nat) (gidIdx : Nat) : Option Nat :=
  if idTable.length ≥ gidIdx then idTable.get? gidIdx else some 0

/-! ## File inode block list (inode.go: GetInodeRef, cases 2 and 9) -/

/-- Number of block-size entries read from disk for a file inode
(inode.go lines 247-254 and 314-321): `size / blockSize`, plus one when
there is no fragment (`fragBlock = 0xffffffff`) and the size is not a
multiple of the block size. -/
def fileBlockCount (blockSize size fragBlock : Nat) : Nat :=
  let blocks := size / blockSize
  if fragBlock = 0xffffffff then
    if size % blockSize ≠ 0 then blocks + 1 else blocks
  else blocks

/-- The decoded `Blocks` list of a file inode (inode.go lines 257-277 and
324-345): read `fileBlockCount` entries from the metadata stream
(`none` when the stream is exhausted, modelling the binary.Read error),
then, when the inode has a fragment, append the in-memory sentinel
0xffffffff. -/
def fileBlockList (blockSize size fragBlock : Nat) (disk : List Nat) :
    Option (List Nat) :=
  let n := fileBlockCount blockSize size fragBlock
  if disk.length < n then none
  else if fragBlock ≠ 0xffffffff then some (disk.take n ++ [0xffffffff])
  else some (disk.take n)

/-! ## Path resolution (super.go: FindInodeAt)

The resolver walks a byte-string path (`List Nat`, `47` is the slash).
Directory content is abstracted to the association list a `dirReader`
scan yields, matching the observable behaviour of
`lookupRelativeInode` (the byte-level directory machinery is modelled
separately); symlink targets come from `Readlink`.  Inode types keep
the numeric squashfs values (1/8 directory, 3/10 symlink, 2/9 file). -/

/-- A filesystem node as the resolver observes it: its inode type, the
`(name, inode)` pairs a directory scan yields, and the symlink target. -/
structure MNode where
  typ : Nat
  children : List (List Nat × Nat)
  target : List Nat
deriving DecidableEq

/-- A model filesystem: node ids index this list. -/
abbrev MFS := List MNode

/-- `Type.Basic` (part_007: subtract 7 from extended types). -/
def typeBasic (t : Nat) : Nat := if t ≥ 8 then t - 7 else t

/-- `Type.IsDir` (part_007). -/
def typeIsDir (t : Nat) : Bool := typeBasic t = 1

/-- `Type.IsSymlink` (part_007). -/
def typeIsSymlink (t : Nat) : Bool := typeBasic t = 3

/-- The inode type of a node (0, an invalid type, for a dangling id). -/
def typeOf (fs : MFS) (i : Nat) : Nat :=
  match fs.get? i with
  | some nd => nd.typ
  | none => 0

/-- Resolver-level view of `lookupRelativeInode` (inode.go lines
510-559): "." yields the inode itself; in a directory the scan either
finds the name or ends in not-exist; any other inode type is invalid. -/
def mlookup (fs : MFS) (self : Nat) (name : List Nat) : Except SqErr Nat :=
  if name = [46] then .ok self
  else if typeOf fs self = 1 ∨ typeOf fs self = 8 then
    match fs.get? self with
    | none => .error .invalid
    | some nd =>
      match nd.children.find? (fun c => c.1 = name) with
      | some c => .ok c.2
      | none => .error .notExist
  else .error .invalid

/-- `Inode.Readlink` (inode.go lines 576-582): the target for types 3
and 10, invalid otherwise. -/
def readlinkM (fs : MFS) (i : Nat) : Except SqErr (List Nat) :=
  if typeOf fs i = 3 ∨ typeOf fs i = 10 then
    match fs.get? i with
    | some nd => .ok nd.target
    | none => .error .invalid
  else .error .invalid

/-- The loop body of `FindInodeAt` (super.go lines 207-292), with an
explicit fuel so the recursion is structural; `none` is returned only
when the fuel runs out, which a sufficient top-level fuel rules out.
State: current inode, the `parent` variable, the remaining path bytes
and the remaining `symlinkRedirects` budget. -/
def findLoop (fs : MFS) (follow : Bool) :
    Nat → Nat → Nat → List Nat → Nat → Option (Except SqErr Nat)
| 0, _, _, _, _ => none
| fuel + 1, cur, parent, name, redirects =>
  if name = [] then some (.ok cur)
  else
    match name.findIdx? (fun b => b = 47) with
    | none =>
      if !follow then some (mlookup fs cur name)
      else
        match mlookup fs cur name with
        | .error e => some (.error e)
        | .ok res =>
          if ¬ typeIsSymlink (typeOf fs res) then some (.ok res)
          else if redirects = 0 then some (.error .tooManySymlinks)
          else
            match readlinkM fs res with
            | .error e => some (.error e)
            | .ok sym =>
              if sym = [] ∨ sym.head? = some 47 then some (.error .invalid)
              else findLoop fs follow fuel parent parent sym (redirects - 1)
    | some 0 => findLoop fs follow fuel cur parent name.tail redirects
    | some pos =>
      if ¬ typeIsDir (typeOf fs cur) then some (.error .notDirectory)
      else
        match mlookup fs cur (name.take pos) with
        | .error e => some (.error e)
        | .ok t =>
          if typeIsSymlink (typeOf fs t) then
            if redirects = 0 then some (.error .tooManySymlinks)
            else
              match readlinkM fs t with
              | .error e => some (.error e)
              | .ok sym =>
                if sym = [] ∨ sym.head? = some 47 then some (.error .invalid)
                else
                  findLoop fs follow fuel cur parent
                    (sym ++ name.drop pos) (redirects - 1)
          else if ¬ typeIsDir (typeOf fs t) then some (.error .notDirectory)
          else findLoop fs follow fuel t cur (name.drop (pos + 1)) redirects

/-- Longest symlink target in the filesystem (used to size the fuel). -/
def maxTargetLen (fs : MFS) : Nat :=
  fs.foldr (fun nd m => max nd.target.length m) 0

/-- `FindInodeAt` (super.go lines 207-292): `parent` starts at `cur`
and the redirect budget at 40.  The fuel bounds the loop: every
non-redirect step consumes at least one path byte, and at most 40
redirects each add at most `maxTargetLen` bytes. -/
def findInodeAt (fs : MFS) (follow : Bool) (cur : Nat) (name : List Nat) :
    Option (Except SqErr Nat) :=
  findLoop fs follow (name.length + 41 * (maxTargetLen fs + 1) + 2) cur cur name 40

/-! ### Concrete filesystems for the symlink-budget claims -/

/-- A root directory containing symlinks `s_1 … s_n` (node `i` is the
symlink named byte `128+i`, pointing to `s_(i+1)`, the last one to the
file named byte `102`) plus that file (node `n+1`).  Resolving `s_1`
with `follow` needs exactly `n` redirects, all on the final
component. -/
def chainFinal (n : Nat) : MFS :=
  ⟨1, ((List.range n).map (fun i => ([128 + (i + 1)], i + 1))) ++ [([102], n + 1)], []⟩ ::
    ((List.range n).map (fun i =>
      ⟨3, [], if i + 1 = n then [102] else [128 + (i + 2)]⟩)) ++ [⟨2, [], []⟩]

/-- A root directory with symlinks `t_1 … t_n` (named bytes `128+i`),
`t_n` pointing to directory `d` (named byte `100`, node `n+1`) which
contains file `f` (named byte `102`, node `n+2`).  Resolving `t_1/f`
needs `n` redirects, all on a non-final component. -/
def chainInter (n : Nat) : MFS :=
  ⟨1, ((List.range n).map (fun i => ([128 + (i + 1)], i + 1))) ++ [([100], n + 1)], []⟩ ::
    ((List.range n).map (fun i =>
      ⟨3, [], if i + 1 = n then [100] else [128 + (i + 2)]⟩)) ++
    [⟨1, [([102], n + 2)], []⟩, ⟨2, [], []⟩]

/-- Filesystem for the final-symlink resumption counterexample:
root (0) holds directory `a` (1) and file `c` (2); `a` holds symlink
`b` (3, target "c") and file `c` (4). -/
def fsC3 : MFS :=
  [⟨1, [([97], 1), ([99], 2)], []⟩,
   ⟨1, [([98], 3), ([99], 4)], []⟩,
   ⟨2, [], []⟩,
   ⟨3, [], [99]⟩,
   ⟨2, [], []⟩]

/-! ## Directory entry stream (dir.go: dirReader.nextfull)

The underlying metadata stream is modelled by the byte list it still
yields; `n` is the `io.LimitedReader` budget.  `binary.Read` is
`io.ReadFull`: zero bytes delivered is EOF, a short read is
unexpected-EOF. -/

/-- State of a `dirReader` (dir.go lines 136-141). -/
structure DirRState where
  data : List Nat
  n : Nat
  count : Nat
  startBlock : Nat
  inodeNum : Nat
deriving DecidableEq

/-- `io.ReadFull` of `k` bytes through the `LimitedReader`: at most `n`
bytes (and what the stream still has) are available. -/
def limReadFull (data : List Nat) (n k : Nat) :
    Except SqErr (List Nat × List Nat × Nat) :=
  let avail := min n data.length
  if avail = 0 then .error .eof
  else if avail < k then .error .unexpectedEOF
  else .ok (data.take k, data.drop k, n - k)

/-- One yielded directory entry. -/
structure DirEnt where
  name : List Nat
  typ : Nat
  inoRef : Nat
deriving DecidableEq

/-- `dirReader.readHeader` (dir.go lines 239-258): three uint32 reads,
then `count += 1` in uint32 arithmetic. -/
def dirReadHeader (o : SqOrder) (st : DirRState) : Except SqErr DirRState :=
  match limReadFull st.data st.n 4 with
  | .error e => .error e
  | .ok (bc, d1, n1) =>
    match limReadFull d1 n1 4 with
    | .error e => .error e
    | .ok (bs, d2, n2) =>
      match limReadFull d2 n2 4 with
      | .error e => .error e
      | .ok (bi, d3, n3) =>
        .ok { data := d3, n := n3,
              count := (ordVal o bc + 1) % 2 ^ 32,
              startBlock := ordVal o bs,
              inodeNum := ordVal o bi }

/-- `dirReader.nextfull` (dir.go lines 192-237): the `N == 3`
end-of-directory check, an optional header read when the entry counter
is zero, then one entry (offset, inode delta, type, size, name of
`size+1` bytes) and the uint32 counter decrement. -/
def nextfull (o : SqOrder) (st : DirRState) :
    Except SqErr (DirEnt × DirRState) :=
  if st.n = 3 then .error .eof
  else
    match (if st.count = 0 then dirReadHeader o st else .ok st) with
    | .error e => .error e
    | .ok st1 =>
      match limReadFull st1.data st1.n 2 with
      | .error e => .error e
      | .ok (boff, d1, n1) =>
        match limReadFull d1 n1 2 with
        | .error e => .error e
        | .ok (_, d2, n2) =>
          match limReadFull d2 n2 2 with
          | .error e => .error e
          | .ok (btyp, d3, n3) =>
            match limReadFull d3 n3 2 with
            | .error e => .error e
            | .ok (bsiz, d4, n4) =>
              match limReadFull d4 n4 (ordVal o bsiz + 1) with
              | .error e => .error e
              | .ok (bname, d5, n5) =>
                let offset := ordVal o boff
                .ok ({ name := bname, typ := ordVal o btyp,
                       inoRef := st1.startBlock * 2 ^ 16 + offset },
                     { data := d5, n := n5,
                       count := if st1.count = 0 then 2 ^ 32 - 1 else st1.count - 1,
                       startBlock := st1.startBlock,
                       inodeNum := st1.inodeNum })

/-! ## File content reads (inode.go: Inode.ReadAt)

Only byte counts matter to the bound claims, so buffers are modelled by
their lengths; the per-block environment says what the fragment table,
`fs.ReadAt` and the decompressor would produce. -/

/-- Result of fetching one block's decoded buffer. -/
inductive Fetch
| ferr
| fpanic
| fok (len : Nat)
deriving DecidableEq

/-- Environment of a `ReadAt` run: the superblock block size, the
length of the decoded fragment buffer (inode.go lines 409-464), and the
per-block read/decompress results of the default branch. -/
structure RdEnv where
  blockSize : Nat
  fragLen : Except Unit Nat
  readErr : Nat → Bool
  decompLen : Nat → Except Unit Nat

/-- The file-inode fields `ReadAt` consults. -/
structure RdIno where
  typ : Nat
  size : Nat
  fragOfft : Nat
  blocks : List Nat
deriving DecidableEq

/-- Outcome of `ReadAt`: a Go `(n, err)` return, or a panic. -/
inductive RdOutcome
| ret (n : Nat) (e : Option SqErr)
| panicked
deriving DecidableEq

/-- Decode one block of the `ReadAt` loop (inode.go lines 407-483):
the 0xffffffff sentinel reads the fragment and trims `FragOfft` from it
(a Go slice, panicking past the end); 0 is a sparse hole of
`BlockSize` zero bytes; otherwise `size & 0xfffff` bytes are read and
decompressed unless bit 0x1000000 is set. -/
def fetchBlock (env : RdEnv) (ino : RdIno) (block b : Nat) : Fetch :=
  if b = 0xffffffff then
    match env.fragLen with
    | .error _ => .ferr
    | .ok fl =>
      if ino.fragOfft ≠ 0 then
        if ino.fragOfft > fl then .fpanic else .fok (fl - ino.fragOfft)
      else .fok fl
  else if b = 0 then .fok env.blockSize
  else
    if env.readErr block then .ferr
    else if b &&& 0x1000000 = 0 then
      match env.decompLen block with
      | .error _ => .ferr
      | .ok l => .fok l
    else .fok (b &&& 0xfffff)

/-- The copy loop of `ReadAt` (inode.go lines 403-504): fetch the block,
trim the intra-block offset (a slice, panicking past the buffer end),
copy `min` bytes, return when the destination is full, else advance to
the next block.  Indexing `Blocks` out of range is the Go panic; the
fuel only bounds the structurally decreasing recursion and is chosen so
that it cannot run out before that panic. -/
def readAtLoop (env : RdEnv) (ino : RdIno) :
    Nat → Nat → Nat → Nat → Nat → RdOutcome
| 0, _, _, _, _ => .panicked
| fuel + 1, block, offset, plen, n =>
  match ino.blocks.get? block with
  | none => .panicked
  | some b =>
    match fetchBlock env ino block b with
    | .ferr => .ret n (some .ioError)
    | .fpanic => .panicked
    | .fok blen =>
      if offset > blen then .panicked
      else
        let l := min plen (blen - offset)
        if l = plen then .ret (n + l) none
        else readAtLoop env ino fuel (block + 1) 0 (plen - l) (n + l)

/-- `Inode.ReadAt` (inode.go lines 384-507) on a destination of length
`plen` at offset `off`: EOF when `off ≥ size`, clamp the destination to
`size - off`, then run the block copy loop; non-file types return
`fs.ErrInvalid`. -/
def readAt (env : RdEnv) (ino : RdIno) (plen off : Nat) : RdOutcome :=
  if ino.typ = 2 ∨ ino.typ = 9 then
    if off ≥ ino.size then .ret 0 (some .eof)
    else
      let plen' := if off + plen > ino.size then ino.size - off else plen
      readAtLoop env ino (ino.blocks.length + 1)
        (off / env.blockSize) (off % env.blockSize) plen' 0
  else .ret 0 (some .invalid)

/-! ## Directory index lookup (inode.go: lookupRelativeInode) -/

/-- Go byte-string `<` (the comparison behind `strings.Compare` and
string `>`): raw byte lexicographic order. -/
def lexLtB : List Nat → List Nat → Bool
| [], [] => false
| [], _ :: _ => true
| _ :: _, [] => false
| a :: as, b :: bs => if a < b then true else if b < a then false else lexLtB as bs

/-- A directory index entry (dir.go lines 155-159). -/
structure DirIdxE where
  index : Nat
  start : Nat
  name : List Nat
deriving DecidableEq

/-- The index scan of `lookupRelativeInode` (inode.go lines 520-527):
walk the entries in order, breaking at the first whose name exceeds the
target; the accumulator holds the last entry seen before the break. -/
def selectIndex (name : List Nat) :
    List DirIdxE → Option DirIdxE → Option DirIdxE
| [], di => di
| t :: rest, di =>
  if lexLtB name t.name then di else selectIndex name rest (some t)

/-- The linear scan of `lookupRelativeInode` (inode.go lines 532-556)
over the entries the (possibly re-anchored) directory reader yields:
EOF is not-exist; with an index present, the first entry past the
target proves absence; a name match returns the entry's inode
reference. -/
def scanEntries (indexed : Bool) (name : List Nat) :
    List (List Nat × Nat) → Except SqErr Nat
| [] => .error .notExist
| (ename, r) :: rest =>
  if indexed ∧ lexLtB name ename then .error .notExist
  else if name = ename then .ok r
  else scanEntries indexed name rest

/-- `lookupRelativeInode` (inode.go lines 510-559) over an abstract
directory stream: `stream di` is the entry sequence the directory
reader yields after being re-anchored at index entry `di`
(`stream none` reads from the directory start, the `seek == nil` path
of dir.go lines 161-185). -/
def lookupWithIndex (selfRef : Nat) (typ : Nat) (dirIndex : List DirIdxE)
    (stream : Option DirIdxE → List (List Nat × Nat)) (name : List Nat) :
    Except SqErr Nat :=
  if name = [46] then .ok selfRef
  else if typ = 1 ∨ typ = 8 then
    let di := selectIndex name dirIndex none
    scanEntries di.isSome name (stream di)
  else .error .invalid

/-! ## Writer convergence loops (writer.go: buildInodeTableToBuffer) -/

/-- The inode-position loop (writer.go lines 979-1007).  `step` is one
recomputation (`simulateDirectoryIndices` followed by
`computeInodePositions`, a function of the previous position map) and
`beq` is `inodePositionsEqual`.  The loop runs for
`iteration = 0 … 9`; from iteration 1 on, two equal consecutive maps
break out, and reaching iteration 9 without convergence is the error.
The fuel counts the remaining iterations (10 at entry), so the
`fuel = 0` branch is unreachable. -/
def convergeAux {α : Type} (step : α → α) (beq : α → α → Bool) :
    Nat → Nat → α → Except Unit α
| 0, _, cur => .ok cur
| fuel + 1, iteration, cur =>
  let next := step cur
  if iteration > 0 ∧ beq cur next = true then .ok next
  else if iteration = 9 then .error ()
  else convergeAux step beq fuel (iteration + 1) next

/-- Entry point of the inode-position loop: 10 iterations, starting
from the initial (empty) position map. -/
def converge {α : Type} (step : α → α) (beq : α → α → Bool) (init : α) :
    Except Unit α :=
  convergeAux step beq 10 0 init

/-- The block-position loop (writer.go lines 1017-1049).  `g` is one
`computeDirectoryTableOffsets` + `computeBlockPositions` pass (returning
the updated writer state and the new block positions), `beq` is
`blockPositionsEqual`, and `reb` is
`rebuildDirectoryDataWithBlockPositions`, whose failure (`some e`)
aborts the loop; `error none` is the convergence failure at
iteration 9. -/
def dirConvergeAux {σ β ε : Type} (g : σ → σ × β) (beq : β → β → Bool)
    (reb : σ → β → Except ε σ) :
    Nat → Nat → σ → Option β → Except (Option ε) (σ × β)
| 0, _, st, _ => .ok (st, (g st).2)
| fuel + 1, dirIter, st, bp =>
  let gp := g st
  if dirIter > 0 ∧ (match bp with
                    | some old => beq old gp.2
                    | none => false) = true then .ok (gp.1, gp.2)
  else if dirIter = 9 then .error none
  else
    match reb gp.1 gp.2 with
    | .error e => .error (some e)
    | .ok st2 => dirConvergeAux g beq reb fuel (dirIter + 1) st2 (some gp.2)

/-- Entry point of the block-position loop: 10 iterations, the previous
block positions starting out nil. -/
def dirConverge {σ β ε : Type} (g : σ → σ × β) (beq : β → β → Bool)
    (reb : σ → β → Except ε σ) (st : σ) : Except (Option ε) (σ × β) :=
  dirConvergeAux g beq reb 10 0 st none

/-- The size validation of `rebuildDirectoryDataWithBlockPositions`
(writer.go lines 924-953), applied to the (old size, new size) pairs of
the directory inodes in order: an established (nonzero) size that
changed is an error. -/
def rebuildSizeCheck : List (Nat × Nat) → Except Unit Unit
| [] => .ok ()
| (oldSize, newSize) :: rest =>
  if oldSize ≠ 0 ∧ oldSize ≠ newSize then .error ()
  else rebuildSizeCheck rest

/-! ## Packed byte strings

The writer/reader pipeline below moves kilobyte buffers around; to keep
kernel evaluation shallow they are represented as a base-256 number
(first byte least significant) together with an explicit length.  All
the Go slice operations become arithmetic: append, take, drop, and byte
access are single operations on the packed value.  `bsToList` recovers
the byte list; `leBytes k v` corresponds exactly to `⟨v % 256^k, k⟩`. -/

/-- `256 ^ k` by binary exponentiation (`fuel` bounds the bit length),
so that kernel evaluation stays shallow for kilobyte lengths. -/
def pow256Aux : Nat → Nat → Nat → Nat
| 0, _, _ => 1
| fuel + 1, b, k =>
  if k = 0 then 1
  else (if k % 2 = 1 then b else 1) * pow256Aux fuel (b * b) (k / 2)

/-- `256 ^ k` (see `pow256Aux`). -/
def pow256 (k : Nat) : Nat := pow256Aux 64 256 k

/-- A byte string packed as a base-256 value (first byte = least
significant digit) with its length. -/
structure Bs where
  val : Nat
  len : Nat
deriving DecidableEq

/-- The empty byte string. -/
def bsEmpty : Bs := ⟨0, 0⟩

/-- A one-byte string. -/
def bsByte1 (b : Nat) : Bs := ⟨b % 256, 1⟩

/-- Concatenation (`a` first). -/
def bsApp (a b : Bs) : Bs := ⟨a.val + b.val * pow256 a.len, a.len + b.len⟩

/-- The first `k` bytes (Go `s[:k]` for `k ≤ len`). -/
def bsTake (k : Nat) (a : Bs) : Bs := ⟨a.val % pow256 k, min k a.len⟩

/-- All but the first `k` bytes (Go `s[k:]`). -/
def bsDrop (k : Nat) (a : Bs) : Bs := ⟨a.val / pow256 k, a.len - k⟩

/-- The byte at position `i`. -/
def bsGet (a : Bs) (i : Nat) : Nat := a.val / pow256 i % 256

/-- `n` copies of byte `b` (the geometric series `b·Σ 256^j`). -/
def bsRep (n b : Nat) : Bs := ⟨(b % 256) * ((pow256 n - 1) / 255), n⟩

/-- Little-endian `k`-byte encoding of `v` (binary.Write with
LittleEndian): identical to packing `leBytes k v`. -/
def leN (k v : Nat) : Bs := ⟨v % pow256 k, k⟩

/-- Unpack a byte string into a list (`fuel` at least the length). -/
def bsToList : Nat → Bs → List Nat
| 0, _ => []
| fuel + 1, a =>
  if a.len = 0 then []
  else a.val % 256 :: bsToList fuel (bsDrop 1 a)

/-- Little- or big-endian decode of a whole packed string. -/
def bsOrdVal : SqOrder → Bs → Nat
| .le, a => a.val
| .be, a => beVal (bsToList (a.len + 1) a)

/-- Byte-wise lexicographic `<` on packed strings (Go string `<`),
peeling one byte per step; the fuel is at least the shorter length. -/
def bsLtAux : Nat → Bs → Bs → Bool
| 0, _, _ => false
| fuel + 1, a, b =>
  if a.len = 0 ∧ b.len = 0 then false
  else if a.len = 0 then true
  else if b.len = 0 then false
  else
    let x := a.val % 256
    let y := b.val % 256
    if x < y then true
    else if y < x then false
    else bsLtAux fuel (bsDrop 1 a) (bsDrop 1 b)

/-- See `bsLtAux`. -/
def bsLt (a b : Bs) : Bool := bsLtAux (a.len + 1) a b

/-- Index of the first slash at or after position `i` (the scan behind
`strings.IndexByte(name, 47)`). -/
def firstSlashAux (a : Bs) : Nat → Nat → Option Nat
| _, 0 => none
| i, fuel + 1 =>
  if i ≥ a.len then none
  else if bsGet a i = 47 then some i
  else firstSlashAux a (i + 1) fuel

/-- `strings.IndexByte(name, '/')` on a packed string. -/
def firstSlash (a : Bs) : Option Nat := firstSlashAux a 0 (a.len + 1)

/-- Index of the last slash at or before position `i` (the backward
scan of `getParentPath`, writer.go lines 304-311). -/
def lastSlashAux (a : Bs) : Nat → Option Nat
| 0 => if bsGet a 0 = 47 then some 0 else none
| i + 1 => if bsGet a (i + 1) = 47 then some (i + 1) else lastSlashAux a i

/-- Concatenation of several packed strings. -/
def bsCat (l : List Bs) : Bs := l.foldr bsApp bsEmpty

/-! ## The writer (writer.go)

Byte-accurate embedding of the buffered-sink path of the writer over
packed byte strings.  The pluggable compressor is a parameter
`compress`; `.error ()` models a compression call through an identifier
with no registered compressor, which the writer tolerates by storing
data uncompressed.  File kinds mirror the `Add` type switch. -/

/-- Outcome class of the `Add` mode switch (writer.go lines 249-278). -/
inductive FKind
| fdir
| fregular
| fsymlink (target : Bs)
| fchar
| fblock
| ffifo
| fsock
deriving DecidableEq

/-- What `d.Info()` yields to `Add`, plus the bytes `fs.ReadFile` would
return for a regular file (`none`: no source filesystem). -/
structure MEntry where
  name : Bs
  size : Nat
  perm : Nat
  modTime : Nat
  uid : Nat
  gid : Nat
  kind : FKind
  content : Option Bs
deriving DecidableEq

/-- A directory index entry (dir.go lines 155-159) with a packed
name. -/
structure DirIdxB where
  index : Nat
  start : Nat
  name : Bs
deriving DecidableEq

/-- An in-memory `writerInode` (writer.go lines 69-103).  Children are
held as inode numbers into the writer's arena (`ino` equals one plus
the position in the inode list, since numbers are assigned
sequentially); `parentIno = 0` encodes a nil parent. -/
structure WInode where
  path : Bs
  name : Bs
  ino : Nat
  perm : Nat
  size : Nat
  modTime : Nat
  uid : Nat
  gid : Nat
  nlink : Nat
  fileType : Nat
  symTarget : Bs
  srcContent : Option Bs
  entries : List Nat
  parentIno : Nat
  dirOffset : Nat
  dirIndex : List DirIdxB
  dirData : Bs
  dataBlocks : List Nat
  startBlock : Nat
  inodeBlockStart : Nat
  inodeOffset : Nat
deriving DecidableEq

/-- A fresh non-root inode before the `Add` switch runs. -/
def blankWInode : WInode :=
  { path := bsEmpty, name := bsEmpty, ino := 0, perm := 0, size := 0,
    modTime := 0, uid := 0, gid := 0, nlink := 1, fileType := 0,
    symTarget := bsEmpty, srcContent := none, entries := [], parentIno := 0,
    dirOffset := 0, dirIndex := [], dirData := bsEmpty, dataBlocks := [],
    startBlock := 0, inodeBlockStart := 0, inodeOffset := 0 }

/-- The `Writer` state (writer.go lines 25-63), buffered-sink mode:
output accumulates in `buf` whose first 96 bytes are the superblock
placeholder. -/
structure WState where
  buf : Bs
  offset : Nat
  blockSize : Nat
  comp : Nat
  modTime : Nat
  flags : Nat
  inodes : List WInode
  inodeCount : Nat
  inodeMap : List (Bs × Nat)
  idList : List Nat
  idTableStart : Nat
  inodeTableStart : Nat
  dirTableStart : Nat
  fragTableStart : Nat
  exportTableStart : Nat
  bytesUsed : Nat
  precompressedDirBlocks : List Bs
deriving DecidableEq

/-- `NewWriter` (writer.go lines 138-185) with a plain `io.Writer` sink:
pre-reserve the 96-byte placeholder and create the root inode. -/
def newWriter (blockSize comp modTime : Nat) : WState :=
  { buf := bsRep 96 0, offset := 96, blockSize := blockSize,
    comp := comp, modTime := modTime, flags := 0,
    inodes := [{ blankWInode with
                 ino := 1, perm := 0o755, modTime := modTime,
                 nlink := 2, fileType := 1 }],
    inodeCount := 1, inodeMap := [], idList := [],
    idTableStart := 0, inodeTableStart := 0, dirTableStart := 0,
    fragTableStart := 0, exportTableStart := 0, bytesUsed := 0,
    precompressedDirBlocks := [] }

/-- Arena access by inode number (`ino` is one plus the list position). -/
def getWIno (arena : List WInode) (ino : Nat) : WInode :=
  (arena.get? (ino - 1)).getD blankWInode

/-- Arena update by inode number. -/
def setWIno (arena : List WInode) (ino : Nat) (f : WInode → WInode) : List WInode :=
  match arena.get? (ino - 1) with
  | some old => arena.set (ino - 1) (f old)
  | none => arena

/-- `getParentPath` (writer.go lines 299-313): scan for the last slash;
no slash yields ".", a leading slash yields ".". -/
def getParentPath (path : Bs) : Bs :=
  if path = bsEmpty ∨ path = bsByte1 46 then bsEmpty
  else
    match lastSlashAux path (path.len - 1) with
    | none => bsByte1 46
    | some 0 => bsByte1 46
    | some i => bsTake i path

/-- Association-list lookup standing for the Go `inodeMap` (latest
insertion shadows). -/
def mapFind (m : List (Bs × Nat)) (k : Bs) : Option Nat :=
  match m.find? (fun kv => kv.1 = k) with
  | some kv => some kv.2
  | none => none

/-- `Writer.Add` (writer.go lines 208-296): "." binds the root, other
paths create an inode, run the mode switch, and attach the child to the
parent found through `inodeMap`. -/
def addEntry (w : WState) (path : Bs) (e : MEntry) : Except Unit WState :=
  if path = bsByte1 46 ∨ path = bsEmpty then
    .ok { w with inodeMap := (bsByte1 46, 1) :: (bsEmpty, 1) :: w.inodeMap }
  else
    let cnt := w.inodeCount + 1
    let base : WInode :=
      { blankWInode with
        path := path, name := e.name, ino := cnt,
        perm := e.perm, size := e.size, modTime := e.modTime,
        uid := e.uid, gid := e.gid, nlink := 1, srcContent := e.content }
    let inode : WInode :=
      match e.kind with
      | .fdir => { base with fileType := 1, entries := [], nlink := 2 }
      | .fregular => { base with fileType := 2 }
      | .fsymlink target =>
        { base with fileType := 3, symTarget := target, size := target.len }
      | .fchar => { base with fileType := 5 }
      | .fblock => { base with fileType := 4 }
      | .ffifo => { base with fileType := 6 }
      | .fsock => { base with fileType := 7 }
    match mapFind w.inodeMap (getParentPath path) with
    | none => .error ()
    | some par =>
      let inode := { inode with parentIno := par }
      let arena := w.inodes ++ [inode]
      let arena := setWIno arena par (fun p => { p with entries := p.entries ++ [cnt] })
      .ok { w with inodeCount := cnt, inodes := arena,
                   inodeMap := (path, cnt) :: w.inodeMap }

/-- `Writer.write` in buffered mode (writer.go lines 316-332). -/
def wWrite (w : WState) (data : Bs) : WState :=
  { w with buf := bsApp w.buf data, offset := w.offset + data.len }

/-- `buildIDTable` (writer.go lines 335-357): deduplicated UIDs/GIDs in
first-seen order (UID before GID per inode). -/
def buildIDTableList : List WInode → List Nat → List Nat
| [], acc => acc
| ino :: rest, acc =>
  let acc := if acc.contains ino.uid then acc else acc ++ [ino.uid]
  let acc := if acc.contains ino.gid then acc else acc ++ [ino.gid]
  buildIDTableList rest acc

/-- The `idTable` map: index of an id in `idList` (zero for an id that
was never collected, matching the Go map zero value). -/
def idIndexOf (idList : List Nat) (id : Nat) : Nat :=
  (idList.findIdx? (fun x => x = id)).getD 0

/-- `writeMetadataBlock` (writer.go lines 361-388): 2-byte little-endian
header, high bit set when stored uncompressed (on compression failure
or when compression does not strictly shrink). -/
def writeMetadataBlock (compress : Bs → Except Unit Bs)
    (w : WState) (data : Bs) : WState × Nat :=
  let blockStart := w.offset
  match compress data with
  | .ok compressed =>
    if compressed.len ≥ data.len then
      (wWrite (wWrite w (leN 2 (data.len % 2 ^ 16 ||| 0x8000))) data, blockStart)
    else
      (wWrite (wWrite w (leN 2 (compressed.len % 2 ^ 16))) compressed, blockStart)
  | .error _ =>
    (wWrite (wWrite w (leN 2 (data.len % 2 ^ 16 ||| 0x8000))) data, blockStart)

/-- `writeIDTable` (writer.go lines 391-411): the ID metadata block
followed by the single 64-bit indirect pointer. -/
def writeIDTable (compress : Bs → Except Unit Bs) (w : WState) : WState :=
  let idData := bsCat (w.idList.map (fun id => leN 4 id))
  let p := writeMetadataBlock compress w idData
  let w1 := { p.1 with idTableStart := p.1.offset }
  wWrite w1 (leN 8 p.2)

/-- `int16(a) - int16(b)` re-encoded as the uint16 the writer emits. -/
def sub16 (a b : Nat) : Nat := (a % 2 ^ 16 + 2 ^ 16 - b % 2 ^ 16) % 2 ^ 16

/-- `serializeInode` (writer.go lines 419-582). -/
def serializeInode (idList : List Nat) (ino : WInode) : Except Unit Bs :=
  let header := bsCat
    [leN 2 ino.fileType, leN 2 (ino.perm % 0o1000),
     leN 2 (idIndexOf idList ino.uid % 2 ^ 16),
     leN 2 (idIndexOf idList ino.gid % 2 ^ 16),
     leN 4 (ino.modTime % 2 ^ 32), leN 4 ino.ino]
  let parentIno := if ino.parentIno = 0 then 1 else ino.parentIno
  if ino.fileType = 1 then
    .ok (bsCat [header, leN 4 0, leN 4 ino.nlink,
                leN 2 (ino.size % 2 ^ 16), leN 2 (ino.dirOffset % 2 ^ 16),
                leN 4 parentIno])
  else if ino.fileType = 8 then
    .ok (bsCat [header, leN 4 ino.nlink, leN 4 (ino.size % 2 ^ 32),
                leN 4 0, leN 4 parentIno,
                leN 2 (ino.dirIndex.length % 2 ^ 16),
                leN 2 (ino.dirOffset % 2 ^ 16), leN 4 0xFFFFFFFF,
                bsCat (ino.dirIndex.map (fun idx =>
                  bsCat [leN 4 idx.index, leN 4 idx.start,
                         leN 4 (idx.name.len - 1), idx.name]))])
  else if ino.fileType = 2 then
    .ok (bsCat [header, leN 4 (ino.startBlock % 2 ^ 32),
                leN 4 0xFFFFFFFF, leN 4 0, leN 4 (ino.size % 2 ^ 32),
                bsCat (ino.dataBlocks.map (fun b => leN 4 b))])
  else if ino.fileType = 3 then
    .ok (bsCat [header, leN 4 ino.nlink, leN 4 ino.symTarget.len,
                ino.symTarget])
  else if ino.fileType = 5 ∨ ino.fileType = 4 then
    .ok (bsCat [header, leN 4 ino.nlink, leN 4 0])
  else if ino.fileType = 6 ∨ ino.fileType = 7 then
    .ok (bsCat [header, leN 4 ino.nlink])
  else .error ()

/-- An inode's place in the metadata blocks (writer.go lines 590-593). -/
structure IPos where
  blockNum : Nat
  offset : Nat
deriving DecidableEq

/-- Position lookup with the Go map zero value for a missing key. -/
def posFind (m : List (Nat × IPos)) (ino : Nat) : IPos :=
  match m.find? (fun kv => kv.1 = ino) with
  | some kv => kv.2
  | none => ⟨0, 0⟩

/-- `inodePositionsEqual` (writer.go lines 874-884). -/
def posEqual (a b : List (Nat × IPos)) : Bool :=
  a.length = b.length ∧
    a.all (fun kv =>
      match b.find? (fun kv2 => kv2.1 = kv.1) with
      | some kv2 => kv2.2 = kv.2
      | none => false)

/-- `computeInodePositions` (writer.go lines 693-719): pack serialized
inodes into 8192-byte blocks, starting a new block when the current one
would overflow. -/
def computeInodePositionsAux (idList : List Nat) :
    List WInode → Nat → Nat → List (Nat × IPos) →
    Except Unit (List (Nat × IPos))
| [], _, _, acc => .ok acc
| ino :: rest, currentBlock, bl, acc =>
  match serializeInode idList ino with
  | .error e => .error e
  | .ok data =>
    let step :=
      if bl > 0 ∧ bl + data.len > 8192 then (currentBlock + 1, 0)
      else (currentBlock, bl)
    computeInodePositionsAux idList rest step.1 (step.2 + data.len)
      (acc ++ [(ino.ino, ⟨step.1, step.2⟩)])

/-- Entry point of `computeInodePositions`. -/
def computeInodePositions (idList : List Nat) (arena : List WInode) :
    Except Unit (List (Nat × IPos)) :=
  computeInodePositionsAux idList arena 0 0 []

/-- `computeBlockPositions` (writer.go lines 722-753): byte offsets of
the inode metadata blocks after compression, starting with 0. -/
def computeBlockPositionsAux (compress : Bs → Except Unit Bs)
    (idList : List Nat) :
    List WInode → Bs → Nat → List Nat → Except Unit (List Nat)
| [], _, _, positions => .ok positions
| ino :: rest, blockBuf, tempLen, positions =>
  match serializeInode idList ino with
  | .error e => .error e
  | .ok data =>
    if blockBuf.len > 0 ∧ blockBuf.len + data.len > 8192 then
      let csize :=
        match compress blockBuf with
        | .ok c => if c.len < blockBuf.len then 2 + c.len
                   else 2 + blockBuf.len
        | .error _ => 2 + blockBuf.len
      computeBlockPositionsAux compress idList rest data (tempLen + csize)
        (positions ++ [tempLen + csize])
    else
      computeBlockPositionsAux compress idList rest (bsApp blockBuf data)
        tempLen positions

/-- Entry point of `computeBlockPositions`. -/
def computeBlockPositions (compress : Bs → Except Unit Bs)
    (idList : List Nat) (arena : List WInode) : Except Unit (List Nat) :=
  computeBlockPositionsAux compress idList arena bsEmpty 0 [0]

/-- `writeCompressedMetadataBlock` (writer.go lines 787-804): the bytes
appended for one metadata block. -/
def compressedMetadataBlock (compress : Bs → Except Unit Bs)
    (blockData : Bs) : Bs :=
  match compress blockData with
  | .ok c =>
    if c.len < blockData.len then bsApp (leN 2 (c.len % 2 ^ 16)) c
    else bsApp (leN 2 (blockData.len % 2 ^ 16 ||| 0x8000)) blockData
  | .error _ => bsApp (leN 2 (blockData.len % 2 ^ 16 ||| 0x8000)) blockData

/-- `serializeInodesToBuffer` (writer.go lines 756-784). -/
def serializeInodesToBufferAux (compress : Bs → Except Unit Bs)
    (idList : List Nat) :
    List WInode → Bs → Bs → Except Unit Bs
| [], blockBuf, result =>
  if blockBuf.len > 0 then
    .ok (bsApp result (compressedMetadataBlock compress blockBuf))
  else .ok result
| ino :: rest, blockBuf, result =>
  match serializeInode idList ino with
  | .error e => .error e
  | .ok data =>
    if blockBuf.len > 0 ∧ blockBuf.len + data.len > 8192 then
      serializeInodesToBufferAux compress idList rest data
        (bsApp result (compressedMetadataBlock compress blockBuf))
    else
      serializeInodesToBufferAux compress idList rest (bsApp blockBuf data) result

/-- Entry point of `serializeInodesToBuffer`. -/
def serializeInodesToBuffer (compress : Bs → Except Unit Bs)
    (idList : List Nat) (arena : List WInode) : Except Unit Bs :=
  serializeInodesToBufferAux compress idList arena bsEmpty bsEmpty

/-- The chunking step shared by `buildDirectoryEntryData` and
`simulateDirectoryIndices` (writer.go lines 630-635 and 823-828): take
children while they stay in the first child's metadata block and fewer
than 256 have been taken. -/
def takeChunk (inodePos : List (Nat × IPos)) (firstBlock : Nat) :
    List Nat → Nat → List Nat × List Nat
| [], _ => ([], [])
| e :: rest, taken =>
  if taken < 256 ∧ (posFind inodePos e).blockNum = firstBlock then
    let p := takeChunk inodePos firstBlock rest (taken + 1)
    (e :: p.1, p.2)
  else ([], e :: rest)

/-- One chunk's bytes in `buildDirectoryEntryData` (writer.go lines
648-683): header (count-1, block position, first inode number), then
each entry's offset, inode delta, type, name length minus one and name
bytes. -/
def chunkBytes (arena : List WInode) (inodePos : List (Nat × IPos))
    (blockPositions : Option (List Nat)) (chunk : List Nat) : Bs :=
  match chunk with
  | [] => bsEmpty
  | first :: _ =>
    let firstIno := getWIno arena first
    let firstBlock := (posFind inodePos first).blockNum
    let blockPos :=
      match blockPositions with
      | some ps => if firstBlock < ps.length then ps.getD firstBlock 0 else 0
      | none => 0
    bsApp (bsCat [leN 4 (chunk.length - 1), leN 4 blockPos, leN 4 firstIno.ino])
      (bsCat (chunk.map (fun e =>
        let child := getWIno arena e
        bsCat [leN 2 ((posFind inodePos e).offset % 2 ^ 16),
               leN 2 (sub16 child.ino firstIno.ino),
               leN 2 child.fileType,
               leN 2 ((child.name.len - 1) % 2 ^ 16), child.name])))

/-- The chunk loop of `buildDirectoryEntryData` (writer.go lines
624-686), also appending one index entry per chunk for extended
directories.  The fuel counts entries still to place; each round
consumes at least the chunk head, so the entry count suffices. -/
def buildDirChunks (arena : List WInode) (inodePos : List (Nat × IPos))
    (blockPositions : Option (List Nat)) (isXDir : Bool) :
    Nat → List Nat → Bs → List DirIdxB → Bs × List DirIdxB
| _, [], dirBuf, dirIndex => (dirBuf, dirIndex)
| 0, _ :: _, dirBuf, dirIndex => (dirBuf, dirIndex)
| fuel + 1, e :: rest, dirBuf, dirIndex =>
  let firstBlock := (posFind inodePos e).blockNum
  let p := takeChunk inodePos firstBlock (e :: rest) 0
  let dirIndex :=
    if isXDir then
      dirIndex ++ [⟨dirBuf.len, 0, (getWIno arena e).name⟩]
    else dirIndex
  let bytes := chunkBytes arena inodePos blockPositions p.1
  buildDirChunks arena inodePos blockPositions isXDir fuel p.2
    (bsApp dirBuf bytes) dirIndex

/-- `buildDirectoryEntryData` (writer.go lines 596-689): the empty
directory writes a single header and returns before the index reset;
otherwise extended directories restart their index and the chunk loop
runs.  Returns the directory body and the index. -/
def buildDirectoryEntryData (arena : List WInode) (inodePos : List (Nat × IPos))
    (blockPositions : Option (List Nat)) (inode : WInode) :
    Bs × List DirIdxB :=
  if inode.entries = [] then
    (bsCat [leN 4 0, leN 4 0, leN 4 inode.ino], inode.dirIndex)
  else
    buildDirChunks arena inodePos blockPositions (inode.fileType = 8)
      inode.entries.length inode.entries bsEmpty
      (if inode.fileType = 8 then [] else inode.dirIndex)

/-- The chunk walk of `simulateDirectoryIndices` (writer.go lines
818-867): collect one index entry per chunk; only the byte length of
the simulated chunk (12-byte header plus `8 + name length` per entry)
advances the position. -/
def simChunks (arena : List WInode) (inodePos : List (Nat × IPos)) :
    Nat → List Nat → Nat → List DirIdxB → List DirIdxB
| _, [], _, dirIndex => dirIndex
| 0, _ :: _, _, dirIndex => dirIndex
| fuel + 1, e :: rest, bl, dirIndex =>
  let firstBlock := (posFind inodePos e).blockNum
  let p := takeChunk inodePos firstBlock (e :: rest) 0
  let dirIndex := dirIndex ++ [⟨bl, 0, (getWIno arena e).name⟩]
  let clen := 12 + p.1.foldr (fun x acc => 8 + (getWIno arena x).name.len + acc) 0
  simChunks arena inodePos fuel p.2 (bl + clen) dirIndex

/-- `simulateDirectoryIndices` (writer.go lines 807-871): rebuild the
index of every extended directory from the current inode positions
(skipped entirely while the position map is still empty). -/
def simulateDirectoryIndices (inodePos : List (Nat × IPos))
    (arena : List WInode) : List WInode :=
  arena.map (fun inode =>
    if inode.fileType ≠ 8 ∨ inodePos = [] then inode
    else { inode with
           dirIndex := simChunks arena inodePos inode.entries.length
             inode.entries 0 [] })

/-- `buildDirectoryDataForAllInodes` (writer.go lines 887-907): walk the
arena in order, assign each directory its global byte offset, build its
body and record its size. -/
def buildDirDataAux (arena0 : List WInode) (inodePos : List (Nat × IPos))
    (blockPositions : Option (List Nat)) :
    List WInode → Nat → List WInode → List WInode
| [], _, acc => acc
| inode :: rest, global, acc =>
  if inode.fileType ≠ 1 ∧ inode.fileType ≠ 8 then
    buildDirDataAux arena0 inodePos blockPositions rest global (acc ++ [inode])
  else
    let inode := { inode with dirOffset := global }
    let p := buildDirectoryEntryData arena0 inodePos blockPositions inode
    let inode := { inode with dirData := p.1, dirIndex := p.2, size := p.1.len }
    buildDirDataAux arena0 inodePos blockPositions rest (global + p.1.len)
      (acc ++ [inode])

/-- Entry point of `buildDirectoryDataForAllInodes`. -/
def buildDirectoryDataForAllInodes (inodePos : List (Nat × IPos))
    (blockPositions : Option (List Nat)) (arena : List WInode) : List WInode :=
  buildDirDataAux arena inodePos blockPositions arena 0 []

/-- `rebuildDirectoryDataWithBlockPositions` (writer.go lines 924-953):
as the build pass, but an established (nonzero) directory size that
changes is an error. -/
def rebuildDirDataAux (arena0 : List WInode) (inodePos : List (Nat × IPos))
    (blockPositions : List Nat) :
    List WInode → Nat → List WInode → Except Unit (List WInode)
| [], _, acc => .ok acc
| inode :: rest, global, acc =>
  if inode.fileType ≠ 1 ∧ inode.fileType ≠ 8 then
    rebuildDirDataAux arena0 inodePos blockPositions rest global (acc ++ [inode])
  else
    let oldSize := inode.size
    let inode := { inode with dirOffset := global }
    let p := buildDirectoryEntryData arena0 inodePos (some blockPositions) inode
    let newSize := p.1.len
    if oldSize ≠ 0 ∧ oldSize ≠ newSize then .error ()
    else
      rebuildDirDataAux arena0 inodePos blockPositions rest (global + newSize)
        (acc ++ [{ inode with dirData := p.1, dirIndex := p.2, size := newSize }])

/-- Entry point of `rebuildDirectoryDataWithBlockPositions`. -/
def rebuildDirectoryData (inodePos : List (Nat × IPos))
    (blockPositions : List Nat) (arena : List WInode) :
    Except Unit (List WInode) :=
  rebuildDirDataAux arena inodePos blockPositions arena 0 []

/-- Concatenated directory bodies and each directory's byte offset in
them (writer.go lines 1069-1078). -/
def catDirData : List WInode → Bs × List (Nat × Nat)
| [] => (bsEmpty, [])
| inode :: rest =>
  let p := catDirData rest
  if inode.fileType ≠ 1 ∧ inode.fileType ≠ 8 then p
  else (bsApp inode.dirData p.1,
        (inode.ino, 0) :: p.2.map (fun kv => (kv.1, kv.2 + inode.dirData.len)))

/-- The block-splitting loop of `computeDirectoryTableOffsets`
(writer.go lines 1081-1114): cut the directory data into 8192-byte
pieces, compress each as a metadata block, record each block's byte
offset in the compressed output and collect the blocks. -/
def cutDirBlocks (compress : Bs → Except Unit Bs) :
    Nat → Bs → Nat → Nat → List Bs × List (Nat × Nat)
| 0, _, _, _ => ([], [])
| fuel + 1, data, blockIdx, offset =>
  if data.len = 0 then ([], [])
  else
    let blockSize := min data.len 8192
    let toWrite := compressedMetadataBlock compress (bsTake blockSize data)
    let p := cutDirBlocks compress fuel (bsDrop blockSize data) (blockIdx + 1)
      (offset + toWrite.len)
    (toWrite :: p.1, (blockIdx, offset) :: p.2)

/-- Lookup in the Go maps of `computeDirectoryTableOffsets` (zero value
for a missing key). -/
def natMapFind (m : List (Nat × Nat)) (k : Nat) : Nat :=
  match m.find? (fun kv => kv.1 = k) with
  | some kv => kv.2
  | none => 0

/-- `computeDirectoryTableOffsets` (writer.go lines 1067-1131):
pre-compress the directory table and point every extended directory's
index entries at the compressed block containing them. -/
def computeDirectoryTableOffsets (compress : Bs → Except Unit Bs)
    (arena : List WInode) : List WInode × List Bs :=
  let cd := catDirData arena
  let cut := cutDirBlocks compress (cd.1.len / 8192 + 2) cd.1 0 0
  let arena2 := arena.map (fun inode =>
    if inode.fileType ≠ 8 ∨ inode.dirIndex = [] then inode
    else
      let inodeStart := natMapFind cd.2 inode.ino
      { inode with
        dirIndex := inode.dirIndex.map (fun en =>
          { en with start := natMapFind cut.2 ((inodeStart + en.index) / 8192) }) })
  (arena2, cut.1)

/-- The inode-position convergence loop of `buildInodeTableToBuffer`
(writer.go lines 979-1007): simulate the extended-directory indices,
recompute the positions, stop when two consecutive maps agree, error at
iteration 9 otherwise.  State carries the arena (whose directory
indices the simulation mutates) and the position map. -/
def inodeLoop (idList : List Nat) :
    Nat → Nat → List WInode → List (Nat × IPos) →
    Except Unit (List WInode × List (Nat × IPos))
| 0, _, arena, inodePos => .ok (arena, inodePos)
| fuel + 1, iteration, arena, inodePos =>
  let arena1 := simulateDirectoryIndices inodePos arena
  match computeInodePositions idList arena1 with
  | .error e => .error e
  | .ok newPos =>
    if iteration > 0 ∧ posEqual inodePos newPos = true then .ok (arena1, newPos)
    else if iteration = 9 then .error ()
    else inodeLoop idList fuel (iteration + 1) arena1 newPos

/-- The block-position convergence loop of `buildInodeTableToBuffer`
(writer.go lines 1017-1049): recompute directory table offsets and
block positions, stop when the positions repeat, error at iteration 9,
otherwise rebuild the directory data (whose size check may also error)
and go round again. -/
def dirLoop (compress : Bs → Except Unit Bs) (idList : List Nat)
    (inodePos : List (Nat × IPos)) :
    Nat → Nat → List WInode → Option (List Nat) →
    Except Unit (List WInode × List Bs × List Nat)
| 0, _, arena, _ => .ok (arena, [], [])
| fuel + 1, dirIter, arena, bp =>
  let g := computeDirectoryTableOffsets compress arena
  match computeBlockPositions compress idList g.1 with
  | .error e => .error e
  | .ok newBP =>
    if dirIter > 0 ∧ (match bp with
                      | some old => decide (old = newBP)
                      | none => false) = true then
      .ok (g.1, g.2, newBP)
    else if dirIter = 9 then .error ()
    else
      match rebuildDirectoryData inodePos newBP g.1 with
      | .error e => .error e
      | .ok arena2 =>
        dirLoop compress idList inodePos fuel (dirIter + 1) arena2 (some newBP)

/-- The final position assignment of `buildInodeTableToBuffer`
(writer.go lines 1058-1061): `blockPositions[blockNum]` panics when the
index is out of range. -/
def setFinalPositions (inodePos : List (Nat × IPos)) (blockPositions : List Nat) :
    List WInode → Except Unit (List WInode)
| [] => .ok []
| ino :: rest =>
  match blockPositions.get? (posFind inodePos ino.ino).blockNum with
  | none => .error ()
  | some s =>
    match setFinalPositions inodePos blockPositions rest with
    | .error e => .error e
    | .ok rest2 =>
      .ok ({ ino with inodeBlockStart := s,
                      inodeOffset := (posFind inodePos ino.ino).offset } :: rest2)

/-- `buildInodeTableToBuffer` (writer.go lines 963-1064): clear the
directory layout fields, run the two convergence loops, serialize the
final inodes and record their positions.  Returns the final arena, the
pre-compressed directory blocks and the inode table bytes. -/
def buildInodeTableToBuffer (compress : Bs → Except Unit Bs)
    (idList : List Nat) (arena : List WInode) :
    Except Unit (List WInode × List Bs × Bs) :=
  let arena := arena.map (fun ino =>
    if ino.fileType = 1 ∨ ino.fileType = 8 then
      { ino with size := 0, dirOffset := 0,
                 dirIndex := if ino.fileType = 8 then [] else ino.dirIndex }
    else ino)
  match inodeLoop idList 10 0 arena [] with
  | .error e => .error e
  | .ok (arena1, inodePos) =>
    let arena2 := buildDirectoryDataForAllInodes inodePos none arena1
    match dirLoop compress idList inodePos 10 0 arena2 none with
    | .error e => .error e
    | .ok (arena3, dirBlocks, bp) =>
      match serializeInodesToBuffer compress idList arena3 with
      | .error e => .error e
      | .ok result =>
        match setFinalPositions inodePos bp arena3 with
        | .error e => .error e
        | .ok arena4 => .ok (arena4, dirBlocks, result)

/-- The per-file block writing of `writeFileData` (writer.go lines
1181-1207): cut the content into `blockSize` pieces, write each either
compressed or raw (bit 0x1000000 marking raw), collecting the
block-size list. -/
def writeFileBlocks (compress : Bs → Except Unit Bs) (blockSize : Nat) :
    Nat → WState → Bs → List Nat → WState × List Nat
| 0, w, _, blocks => (w, blocks)
| fuel + 1, w, data, blocks =>
  if data.len = 0 then (w, blocks)
  else
    let block := bsTake (min blockSize data.len) data
    match compress block with
    | .ok c =>
      if c.len ≥ block.len then
        writeFileBlocks compress blockSize fuel (wWrite w block)
          (bsDrop blockSize data) (blocks ++ [block.len ||| 0x1000000])
      else
        writeFileBlocks compress blockSize fuel (wWrite w c)
          (bsDrop blockSize data) (blocks ++ [c.len])
    | .error _ =>
      writeFileBlocks compress blockSize fuel (wWrite w block)
        (bsDrop blockSize data) (blocks ++ [block.len ||| 0x1000000])

/-- `writeFileData` (writer.go lines 1160-1210): for every regular file
with nonzero size and a source filesystem, record the start position
and write its blocks. -/
def writeFileDataAux (compress : Bs → Except Unit Bs) :
    List Nat → WState → WState
| [], w => w
| i :: rest, w =>
  let ino := getWIno w.inodes i
  if ino.fileType ≠ 2 ∨ ino.size = 0 then writeFileDataAux compress rest w
  else
    match ino.srcContent with
    | none => writeFileDataAux compress rest w
    | some data =>
      let start := w.offset
      let p := writeFileBlocks compress w.blockSize (data.len / w.blockSize + 2)
        w data []
      let w2 := { p.1 with
        inodes := setWIno p.1.inodes i
          (fun o => { o with startBlock := start, dataBlocks := p.2 }) }
      writeFileDataAux compress rest w2

/-- Entry point of `writeFileData`: the arena in inode order. -/
def writeFileData (compress : Bs → Except Unit Bs) (w : WState) : WState :=
  writeFileDataAux compress ((List.range w.inodeCount).map (fun i => i + 1)) w

/-- The child name at position `i` of a child list (used by the sort). -/
def nameAt (arena : List WInode) (l : List Nat) (i : Nat) : Bs :=
  (getWIno arena (l.getD i 0)).name

/-- The inner loop of `sortInodes` (writer.go lines 1150-1155): swap
whenever the element at `i` exceeds the one at `j`. -/
def sortJ (arena : List WInode) : Nat → Nat → Nat → List Nat → List Nat
| 0, _, _, l => l
| fuel + 1, i, j, l =>
  if j ≥ l.length then l
  else
    let l2 :=
      if bsLt (nameAt arena l j) (nameAt arena l i) then
        let a := l.getD i 0
        let b := l.getD j 0
        (l.set i b).set j a
      else l
    sortJ arena fuel i (j + 1) l2

/-- The outer loop of `sortInodes` (writer.go lines 1148-1157). -/
def sortI (arena : List WInode) : Nat → Nat → List Nat → List Nat
| 0, _, l => l
| fuel + 1, i, l =>
  if i ≥ l.length then l
  else sortI arena fuel (i + 1) (sortJ arena l.length i (i + 1) l)

/-- `sortInodes` (writer.go lines 1148-1157): the literal double loop. -/
def sortInodesGo (arena : List WInode) (l : List Nat) : List Nat :=
  sortI arena (l.length + 1) 0 l

/-- `prepareDirectories` (writer.go lines 1213-1233): sort every
directory's children by name and promote directories with more than
256 children to the extended type. -/
def prepareDirectories (w : WState) : WState :=
  { w with inodes := w.inodes.map (fun inode =>
      if inode.fileType ≠ 1 then inode
      else
        let es := sortInodesGo w.inodes inode.entries
        { inode with entries := es,
                     fileType := if es.length > 256 then 8 else 1 }) }

/-- `1 << i == blockSize` scan of `buildSuperblock` (writer.go lines
1324-1330). -/
def computeBlockLog (blockSize : Nat) : Nat :=
  ((List.range 32).find? (fun i => 1 <<< i = blockSize)).getD 0

/-- Modelled from the spec: `Superblock.Bytes` is called by `Finalize`
(writer.go line 1303) but its definition is not among the provided
source files.  Spec §6 fixes the layout exactly: 96 bytes, little
endian, fields magic(4) inode_cnt(4) mod_time(4) block_size(4)
frag_count(4) comp(2) block_log(2) flags(2) id_count(2) vmajor(2)
vminor(2) root_inode(8) bytes_used(8) id_table(8) xattr_id_table(8)
inode_table(8) dir_table(8) frag_table(8) export_table(8), with the
field values populated by `buildSuperblock` (writer.go lines
1322-1353). -/
def superBytes (w : WState) : Bs :=
  bsCat [leN 4 0x73717368, leN 4 w.inodeCount, leN 4 (w.modTime % 2 ^ 32),
         leN 4 w.blockSize, leN 4 0, leN 2 w.comp,
         leN 2 (computeBlockLog w.blockSize), leN 2 w.flags,
         leN 2 (w.idList.length % 2 ^ 16), leN 2 4, leN 2 0, leN 8 0,
         leN 8 w.bytesUsed, leN 8 w.idTableStart,
         leN 8 0xFFFFFFFFFFFFFFFF, leN 8 w.inodeTableStart,
         leN 8 w.dirTableStart, leN 8 w.fragTableStart,
         leN 8 w.exportTableStart]

/-- `Writer.Finalize` (writer.go lines 1249-1319), buffered mode:
placeholder, ID table, file data, directory preparation, the inode
table build, the table writes, and the superblock patched over the
buffer's first 96 bytes. -/
def finalize (compress : Bs → Except Unit Bs) (w : WState) :
    Except Unit WState :=
  let w := wWrite w (bsRep 96 0)
  let w := { w with idList := buildIDTableList w.inodes [] }
  let w := writeFileData compress w
  let w := prepareDirectories w
  match buildInodeTableToBuffer compress w.idList w.inodes with
  | .error e => .error e
  | .ok (arena, dirBlocks, inodeTableData) =>
    let w := { w with inodes := arena, precompressedDirBlocks := dirBlocks }
    let w := { w with dirTableStart := w.offset }
    let w := wWrite w (bsCat dirBlocks)
    let w := { w with inodeTableStart := w.offset }
    let w := wWrite w inodeTableData
    let w := writeIDTable compress w
    let w := { w with fragTableStart := 0xFFFFFFFFFFFFFFFF,
                      exportTableStart := 0xFFFFFFFFFFFFFFFF }
    let w := { w with bytesUsed := w.offset }
    .ok { w with buf := bsApp (superBytes w) (bsDrop 96 w.buf) }

/-! ## The whole-image reader (tablereader.go, inode.go, dir.go,
super.go)

The image is a packed byte string; `dec` is the registered
decompressor (`.error ()` models an unsupported compression
identifier, only consulted for blocks stored compressed). -/

/-- Failures of a reader run: a returned Go error, a panic (slice or
index out of range), or exhaustion of the modelling fuel (which a
sufficient choice rules out and which never occurs in the runs proved
below). -/
inductive RFail
| err (e : SqErr)
| panicked
| fuelOut
deriving DecidableEq

/-- `fs.ReadAt` on the image: a full read of `k` bytes at `off`, or
`io.EOF` (`none`) when the image is too short. -/
def imgReadAt (img : Bs) (off k : Nat) : Option Bs :=
  if off + k ≤ img.len then some (bsTake k (bsDrop off img)) else none

/-- A `tableReader` (tablereader.go lines 97-102): next compressed block
offset, the indirect-pointer position (`0` = direct mode, the Go zero
value) and the current decompressed buffer. -/
structure TR where
  offt : Nat
  tofft : Nat
  buf : Bs
deriving DecidableEq

/-- `tableReader.readBlock` (tablereader.go lines 149-193): in indirect
mode first fetch the 64-bit pointer at `tofft` (which this code never
advances); then the 2-byte header, the payload, the offset advance and
the optional decompression. -/
def readBlock (dec : Bs → Except Unit Bs) (o : SqOrder)
    (img : Bs) (tr : TR) : Except RFail TR :=
  let offt0 :=
    if tr.tofft ≠ 0 then
      match imgReadAt img tr.tofft 8 with
      | none => none
      | some b => some (bsOrdVal o b)
    else some tr.offt
  match offt0 with
  | none => .error (.err .eof)
  | some offt =>
    match imgReadAt img offt 2 with
    | none => .error (.err .eof)
    | some hd =>
      let lenN := bsOrdVal o hd
      let nocompress := lenN &&& 0x8000 = 0x8000
      let szN := if nocompress then lenN &&& 0x7fff else lenN
      match imgReadAt img (offt + 2) szN with
      | none => .error (.err .eof)
      | some data =>
        let offt2 := offt + szN + 2
        if nocompress then .ok { tr with offt := offt2, buf := data }
        else
          match dec data with
          | .error _ => .error (.err .ioError)
          | .ok buf => .ok { tr with offt := offt2, buf := buf }

/-- `io.ReadFull` over `tableReader.Read` (tablereader.go lines
195-212): drain the buffer, fetching the next block when it empties
(the Go nil buffer is the empty string); an EOF after a partial read
becomes unexpected-EOF. -/
def trReadFull (dec : Bs → Except Unit Bs) (o : SqOrder)
    (img : Bs) : Nat → TR → Nat → Except RFail (Bs × TR)
| 0, _, _ => .error .fuelOut
| fuel + 1, tr, k =>
  if k = 0 then .ok (bsEmpty, tr)
  else if tr.buf.len = 0 then
    match readBlock dec o img tr with
    | .error e => .error e
    | .ok tr2 => trReadFull dec o img fuel tr2 k
  else
    let n := min k tr.buf.len
    let bytes := bsTake n tr.buf
    let tr2 := { tr with buf := bsDrop n tr.buf }
    match trReadFull dec o img fuel tr2 (k - n) with
    | .ok p => .ok (bsApp bytes p.1, p.2)
    | .error (.err .eof) => .error (.err .unexpectedEOF)
    | .error e => .error e

/-- `trReadFull` with a fuel that cannot run out: every round either
consumes request bytes or advances at least two image bytes. -/
def trRead (dec : Bs → Except Unit Bs) (o : SqOrder)
    (img : Bs) (tr : TR) (k : Nat) : Except RFail (Bs × TR) :=
  trReadFull dec o img (k + img.len + 2) tr k

/-- `newTableReader` (tablereader.go lines 108-128): read the initial
block (io.EOF becoming unexpected-EOF) and cut `start` bytes from the
front — `ir.buf[start:]`, a Go slice that panics past the buffer
end. -/
def newTableReader (dec : Bs → Except Unit Bs) (o : SqOrder)
    (img : Bs) (base start : Nat) : Except RFail TR :=
  match readBlock dec o img ⟨base, 0, bsEmpty⟩ with
  | .error (.err .eof) => .error (.err .unexpectedEOF)
  | .error e => .error e
  | .ok tr1 =>
    if start ≠ 0 then
      if start > tr1.buf.len then .error .panicked
      else .ok { tr1 with buf := bsDrop start tr1.buf }
    else .ok tr1

/-- `newIndirectTableReader` (tablereader.go lines 130-147): as above
but through the pointer array, and without the EOF rewrap. -/
def newIndirectTableReader (dec : Bs → Except Unit Bs)
    (o : SqOrder) (img : Bs) (base start : Nat) : Except RFail TR :=
  match readBlock dec o img ⟨0, base, bsEmpty⟩ with
  | .error e => .error e
  | .ok tr1 =>
    if start ≠ 0 then
      if start > tr1.buf.len then .error .panicked
      else .ok { tr1 with buf := bsDrop start tr1.buf }
    else .ok tr1

/-- Modelled from the spec: the `inodeRef` accessors `Index` and
`Offset` used by `newInodeReader` (tablereader.go line 105) are not
among the provided source files.  Spec §3 defines the packing: the
upper bits hold the byte offset of the metadata block relative to the
inode table start, the low 16 bits the offset inside the decompressed
block. -/
def inoRefIndex (r : Nat) : Nat := r / 2 ^ 16

/-- Modelled from the spec: low 16 bits of an inode reference (see
`inoRefIndex`). -/
def inoRefOffset (r : Nat) : Nat := r % 2 ^ 16

/-- `newInodeReader` (tablereader.go lines 104-106). -/
def newInodeReader (dec : Bs → Except Unit Bs) (o : SqOrder)
    (img : Bs) (inodeTableStart ref : Nat) : Except RFail TR :=
  newTableReader dec o img (inodeTableStart + inoRefIndex ref) (inoRefOffset ref)

/-- Read `k` bytes through the table reader and decode them. -/
def rdN (dec : Bs → Except Unit Bs) (o : SqOrder)
    (img : Bs) (tr : TR) (k : Nat) : Except RFail (Nat × TR) :=
  match trRead dec o img tr k with
  | .error e => .error e
  | .ok p => .ok (bsOrdVal o p.1, p.2)

/-- A decoded reader-side `Inode` (inode.go lines 16-47). -/
structure RIno where
  typ : Nat
  perm : Nat
  uidIdx : Nat
  gidIdx : Nat
  modTime : Nat
  ino : Nat
  startBlock : Nat
  nlink : Nat
  size : Nat
  offset : Nat
  parentIno : Nat
  symTarget : Bs
  idxCount : Nat
  xattrIdx : Nat
  sparse : Nat
  fragBlock : Nat
  fragOfft : Nat
  blocks : List Nat
  blocksOfft : List Nat
  dirIndex : List DirIdxB
deriving DecidableEq

/-- The all-zero inode that `GetInodeRef` starts from. -/
def blankRIno : RIno :=
  { typ := 0, perm := 0, uidIdx := 0, gidIdx := 0, modTime := 0, ino := 0,
    startBlock := 0, nlink := 0, size := 0, offset := 0, parentIno := 0,
    symTarget := bsEmpty, idxCount := 0, xattrIdx := 0, sparse := 0,
    fragBlock := 0, fragOfft := 0, blocks := [], blocksOfft := [],
    dirIndex := [] }

/-- The directory-index load of the extended-directory case (inode.go
lines 199-222): `idxCount` entries of three uint32 values and a name,
rejecting names longer than 256 bytes. -/
def readDirIndexEntries (dec : Bs → Except Unit Bs) (o : SqOrder)
    (img : Bs) : Nat → TR → List DirIdxB →
    Except RFail (List DirIdxB × TR)
| 0, tr, acc => .ok (acc, tr)
| n + 1, tr, acc =>
  match trRead dec o img tr 12 with
  | .error e => .error e
  | .ok (buf, tr1) =>
    let index := bsOrdVal o (bsTake 4 buf)
    let start := bsOrdVal o (bsTake 4 (bsDrop 4 buf))
    let nameLen := bsOrdVal o (bsTake 4 (bsDrop 8 buf)) + 1
    if nameLen > 256 then .error (.err .formatErr)
    else
      match trRead dec o img tr1 nameLen with
      | .error e => .error e
      | .ok (name, tr2) =>
        readDirIndexEntries dec o img n tr2 (acc ++ [⟨index, start, name⟩])

/-- The block-size read loop of the file cases (inode.go lines 263-272
and 331-340): accumulate each entry and the running byte offset
(`offt += size & 0xfffff`). -/
def readBlocksLoop (dec : Bs → Except Unit Bs) (o : SqOrder)
    (img : Bs) : Nat → TR → List Nat → List Nat → Nat →
    Except RFail (List Nat × List Nat × TR)
| 0, tr, bl, bo, _ => .ok (bl, bo, tr)
| n + 1, tr, bl, bo, offt =>
  match rdN dec o img tr 4 with
  | .error e => .error e
  | .ok (u32, tr1) =>
    readBlocksLoop dec o img n tr1 (bl ++ [u32]) (bo ++ [offt])
      (offt + (u32 &&& 0xfffff))

/-- `Superblock.GetInodeRef` (inode.go lines 88-382): read the 16-byte
shared header and dispatch on the type; an unsupported type returns
the partially filled inode without error. -/
def getInodeRef (dec : Bs → Except Unit Bs) (sb : Super)
    (img : Bs) (ref : Nat) : Except RFail RIno :=
  match newInodeReader dec sb.order img sb.inodeTableStart ref with
  | .error e => .error e
  | .ok r =>
    match rdN dec sb.order img r 2 with
    | .error e => .error e
    | .ok (typ, r) =>
      match rdN dec sb.order img r 2 with
      | .error e => .error e
      | .ok (perm, r) =>
        match rdN dec sb.order img r 2 with
        | .error e => .error e
        | .ok (uidIdx, r) =>
          match rdN dec sb.order img r 2 with
          | .error e => .error e
          | .ok (gidIdx, r) =>
            match rdN dec sb.order img r 4 with
            | .error e => .error e
            | .ok (modTime, r) =>
              match rdN dec sb.order img r 4 with
              | .error e => .error e
              | .ok (inoN, r) =>
                let base := { blankRIno with
                  typ := typ, perm := perm, uidIdx := uidIdx,
                  gidIdx := gidIdx, modTime := modTime, ino := inoN }
                if typ = 1 then
                  match rdN dec sb.order img r 4 with
                  | .error e => .error e
                  | .ok (sbk, r) =>
                    match rdN dec sb.order img r 4 with
                    | .error e => .error e
                    | .ok (nlink, r) =>
                      match rdN dec sb.order img r 2 with
                      | .error e => .error e
                      | .ok (size, r) =>
                        match rdN dec sb.order img r 2 with
                        | .error e => .error e
                        | .ok (offset, r) =>
                          match rdN dec sb.order img r 4 with
                          | .error e => .error e
                          | .ok (parent, _) =>
                            .ok { base with
                              startBlock := sbk, nlink := nlink,
                              size := size, offset := offset,
                              parentIno := parent }
                else if typ = 8 then
                  match rdN dec sb.order img r 4 with
                  | .error e => .error e
                  | .ok (nlink, r) =>
                    match rdN dec sb.order img r 4 with
                    | .error e => .error e
                    | .ok (size, r) =>
                      match rdN dec sb.order img r 4 with
                      | .error e => .error e
                      | .ok (sbk, r) =>
                        match rdN dec sb.order img r 4 with
                        | .error e => .error e
                        | .ok (parent, r) =>
                          match rdN dec sb.order img r 2 with
                          | .error e => .error e
                          | .ok (idxCount, r) =>
                            match rdN dec sb.order img r 2 with
                            | .error e => .error e
                            | .ok (offset, r) =>
                              match rdN dec sb.order img r 4 with
                              | .error e => .error e
                              | .ok (xattr, r) =>
                                match readDirIndexEntries dec sb.order img
                                    idxCount r [] with
                                | .error e => .error e
                                | .ok (di, _) =>
                                  .ok { base with
                                    nlink := nlink, size := size,
                                    startBlock := sbk, parentIno := parent,
                                    idxCount := idxCount, offset := offset,
                                    xattrIdx := xattr, dirIndex := di }
                else if typ = 2 then
                  match rdN dec sb.order img r 4 with
                  | .error e => .error e
                  | .ok (sbk, r) =>
                    match rdN dec sb.order img r 4 with
                    | .error e => .error e
                    | .ok (fragBlock, r) =>
                      match rdN dec sb.order img r 4 with
                      | .error e => .error e
                      | .ok (fragOfft, r) =>
                        match rdN dec sb.order img r 4 with
                        | .error e => .error e
                        | .ok (size, r) =>
                          let nblocks := fileBlockCount sb.blockSize size fragBlock
                          match readBlocksLoop dec sb.order img nblocks r [] [] 0 with
                          | .error e => .error e
                          | .ok (bl, bo, _) =>
                            .ok { base with
                              startBlock := sbk, fragBlock := fragBlock,
                              fragOfft := fragOfft, size := size,
                              blocks :=
                                if fragBlock ≠ 0xffffffff then bl ++ [0xffffffff]
                                else bl,
                              blocksOfft := bo }
                else if typ = 9 then
                  match rdN dec sb.order img r 8 with
                  | .error e => .error e
                  | .ok (sbk, r) =>
                    match rdN dec sb.order img r 8 with
                    | .error e => .error e
                    | .ok (size, r) =>
                      match rdN dec sb.order img r 8 with
                      | .error e => .error e
                      | .ok (sparse, r) =>
                        match rdN dec sb.order img r 4 with
                        | .error e => .error e
                        | .ok (nlink, r) =>
                          match rdN dec sb.order img r 4 with
                          | .error e => .error e
                          | .ok (fragBlock, r) =>
                            match rdN dec sb.order img r 4 with
                            | .error e => .error e
                            | .ok (fragOfft, r) =>
                              match rdN dec sb.order img r 4 with
                              | .error e => .error e
                              | .ok (xattr, r) =>
                                let nblocks :=
                                  fileBlockCount sb.blockSize size fragBlock
                                match readBlocksLoop dec sb.order img nblocks
                                    r [] [] 0 with
                                | .error e => .error e
                                | .ok (bl, bo, _) =>
                                  .ok { base with
                                    startBlock := sbk, size := size,
                                    sparse := sparse, nlink := nlink,
                                    fragBlock := fragBlock,
                                    fragOfft := fragOfft, xattrIdx := xattr,
                                    blocks :=
                                      if fragBlock ≠ 0xffffffff then
                                        bl ++ [0xffffffff]
                                      else bl,
                                    blocksOfft := bo }
                else if typ = 3 then
                  match rdN dec sb.order img r 4 with
                  | .error e => .error e
                  | .ok (nlink, r) =>
                    match rdN dec sb.order img r 4 with
                    | .error e => .error e
                    | .ok (tlen, r) =>
                      if tlen > 4096 then .error (.err .formatErr)
                      else
                        match trRead dec sb.order img r tlen with
                        | .error e => .error e
                        | .ok (target, _) =>
                          .ok { base with nlink := nlink, size := tlen,
                                          symTarget := target }
                else .ok base

/-- An image-backed `dirReader` (dir.go lines 136-141): table reader
plus the `LimitedReader` budget and the header state. -/
structure IDR where
  tr : TR
  n : Nat
  count : Nat
  startBlock : Nat
  inodeNum : Nat
deriving DecidableEq

/-- `Superblock.dirReader` (dir.go lines 161-185): re-anchor at an
index entry (offset folded into the first 8 KiB block, budget reduced
by the entry's byte index) or start at the directory's beginning. -/
def imgDirReader (dec : Bs → Except Unit Bs) (sb : Super)
    (img : Bs) (ino : RIno) (seek : Option DirIdxB) :
    Except RFail IDR :=
  match seek with
  | some e =>
    match newTableReader dec sb.order img (sb.dirTableStart + e.start)
        ((ino.offset + e.index) &&& 0x1fff) with
    | .error e2 => .error e2
    | .ok tbl => .ok ⟨tbl, ino.size - e.index, 0, 0, 0⟩
  | none =>
    match newTableReader dec sb.order img (sb.dirTableStart + ino.startBlock)
        ino.offset with
    | .error e2 => .error e2
    | .ok tbl => .ok ⟨tbl, ino.size, 0, 0, 0⟩

/-- `io.ReadFull` through the `LimitedReader` of a directory reader:
a zero budget is EOF, a budget shorter than the request yields
unexpected-EOF once the available bytes are drained. -/
def limRd (dec : Bs → Except Unit Bs) (o : SqOrder)
    (img : Bs) (st : IDR) (k : Nat) : Except RFail (Bs × IDR) :=
  if k = 0 then .ok (bsEmpty, st)
  else if st.n = 0 then .error (.err .eof)
  else if st.n < k then
    match trRead dec o img st.tr st.n with
    | .ok _ => .error (.err .unexpectedEOF)
    | .error e => .error e
  else
    match trRead dec o img st.tr k with
    | .error e => .error e
    | .ok p => .ok (p.1, { st with tr := p.2, n := st.n - k })

/-- A directory entry yielded by the image-backed reader. -/
structure DirEntB where
  name : Bs
  typ : Nat
  inoRef : Nat
deriving DecidableEq

/-- `dirReader.nextfull` over the image (dir.go lines 192-237). -/
def imgNextfull (dec : Bs → Except Unit Bs) (sb : Super)
    (img : Bs) (st : IDR) : Except RFail (DirEntB × IDR) :=
  if st.n = 3 then .error (.err .eof)
  else
    match
      (if st.count = 0 then
        match limRd dec sb.order img st 4 with
        | .error e => .error e
        | .ok (bc, st1) =>
          match limRd dec sb.order img st1 4 with
          | .error e => .error e
          | .ok (bs, st2) =>
            match limRd dec sb.order img st2 4 with
            | .error e => .error e
            | .ok (bi, st3) =>
              .ok { st3 with count := (bsOrdVal sb.order bc + 1) % 2 ^ 32,
                             startBlock := bsOrdVal sb.order bs,
                             inodeNum := bsOrdVal sb.order bi }
      else (.ok st : Except RFail IDR)) with
    | .error e => .error e
    | .ok st1 =>
      match limRd dec sb.order img st1 2 with
      | .error e => .error e
      | .ok (boff, st2) =>
        match limRd dec sb.order img st2 2 with
        | .error e => .error e
        | .ok (_, st3) =>
          match limRd dec sb.order img st3 2 with
          | .error e => .error e
          | .ok (btyp, st4) =>
            match limRd dec sb.order img st4 2 with
            | .error e => .error e
            | .ok (bsiz, st5) =>
              match limRd dec sb.order img st5
                  (bsOrdVal sb.order bsiz + 1) with
              | .error e => .error e
              | .ok (bname, st6) =>
                let offset := bsOrdVal sb.order boff
                .ok ({ name := bname, typ := bsOrdVal sb.order btyp,
                       inoRef := st6.startBlock * 2 ^ 16 + offset },
                     { st6 with
                       count := if st6.count = 0 then 2 ^ 32 - 1
                                else st6.count - 1 })

/-- The index scan of `lookupRelativeInode` (inode.go lines 520-527)
over packed names: walk the entries in order, breaking at the first
whose name exceeds the target; the accumulator holds the last entry
seen before the break. -/
def selectIndexB (name : Bs) :
    List DirIdxB → Option DirIdxB → Option DirIdxB
| [], di => di
| t :: rest, di =>
  if bsLt name t.name then di else selectIndexB name rest (some t)

/-- The scan loop of `lookupRelativeInode` (inode.go lines 532-556)
over the image: EOF means not-exist, an entry past the target (with an
index present) means not-exist, a match loads the inode. -/
def imgScan (dec : Bs → Except Unit Bs) (sb : Super)
    (img : Bs) (indexed : Bool) (name : Bs) :
    Nat → IDR → Except RFail RIno
| 0, _ => .error .fuelOut
| fuel + 1, st =>
  match imgNextfull dec sb img st with
  | .error (.err .eof) => .error (.err .notExist)
  | .error e => .error e
  | .ok (ent, st2) =>
    if indexed ∧ bsLt name ent.name then .error (.err .notExist)
    else if name = ent.name then getInodeRef dec sb img ent.inoRef
    else imgScan dec sb img indexed name fuel st2

/-- `lookupRelativeInode` (inode.go lines 510-559) over the image. -/
def imgLookupRel (dec : Bs → Except Unit Bs) (sb : Super)
    (img : Bs) (ino : RIno) (name : Bs) : Except RFail RIno :=
  if name = bsByte1 46 then .ok ino
  else if ino.typ = 1 ∨ ino.typ = 8 then
    let di := selectIndexB name ino.dirIndex none
    match imgDirReader dec sb img ino di with
    | .error e => .error e
    | .ok dr => imgScan dec sb img di.isSome name (dr.n + 1) dr
  else .error (.err .invalid)

/-- `Inode.Readlink` (inode.go lines 576-582) on a reader inode. -/
def imgReadlink (ino : RIno) : Except RFail Bs :=
  if ino.typ = 3 ∨ ino.typ = 10 then .ok ino.symTarget
  else .error (.err .invalid)

/-- The loop of `FindInodeAt` (super.go lines 207-292) over the image,
fueled like `findLoop`. -/
def imgFindLoop (dec : Bs → Except Unit Bs) (sb : Super)
    (img : Bs) (follow : Bool) :
    Nat → RIno → RIno → Bs → Nat → Except RFail RIno
| 0, _, _, _, _ => .error .fuelOut
| fuel + 1, cur, parent, name, redirects =>
  if name.len = 0 then .ok cur
  else
    match firstSlash name with
    | none =>
      if !follow then imgLookupRel dec sb img cur name
      else
        match imgLookupRel dec sb img cur name with
        | .error e => .error e
        | .ok res =>
          if ¬ typeIsSymlink res.typ then .ok res
          else if redirects = 0 then .error (.err .tooManySymlinks)
          else
            match imgReadlink res with
            | .error e => .error e
            | .ok sym =>
              if sym.len = 0 ∨ bsGet sym 0 = 47 then .error (.err .invalid)
              else imgFindLoop dec sb img follow fuel parent parent sym
                (redirects - 1)
    | some 0 =>
      imgFindLoop dec sb img follow fuel cur parent (bsDrop 1 name) redirects
    | some pos =>
      if ¬ typeIsDir cur.typ then .error (.err .notDirectory)
      else
        match imgLookupRel dec sb img cur (bsTake pos name) with
        | .error e => .error e
        | .ok t =>
          if typeIsSymlink t.typ then
            if redirects = 0 then .error (.err .tooManySymlinks)
            else
              match imgReadlink t with
              | .error e => .error e
              | .ok sym =>
                if sym.len = 0 ∨ bsGet sym 0 = 47 then .error (.err .invalid)
                else
                  imgFindLoop dec sb img follow fuel cur parent
                    (bsApp sym (bsDrop pos name)) (redirects - 1)
          else if ¬ typeIsDir t.typ then .error (.err .notDirectory)
          else imgFindLoop dec sb img follow fuel t cur
            (bsDrop (pos + 1) name) redirects

/-- `FindInodeAt` over the image: redirect budget 40; symlink targets
are at most 4096 bytes (enforced at decode), which sizes the fuel. -/
def imgFindInodeAt (dec : Bs → Except Unit Bs) (sb : Super)
    (img : Bs) (cur : RIno) (name : Bs) (follow : Bool) :
    Except RFail RIno :=
  imgFindLoop dec sb img follow (name.len + 41 * 4097 + 2) cur cur name 40

/-- The uint32 read loop of `readIdTable` (super.go lines 127-134). -/
def readIdsLoop (dec : Bs → Except Unit Bs) (o : SqOrder)
    (img : Bs) : Nat → TR → List Nat → Except RFail (List Nat)
| 0, _, acc => .ok acc
| n + 1, tr, acc =>
  match rdN dec o img tr 4 with
  | .error e => .error e
  | .ok (v, tr2) => readIdsLoop dec o img n tr2 (acc ++ [v])

/-- `readIdTable` (super.go lines 120-137): the indirect reader at the
ID table start, then `IdCount` uint32 reads. -/
def imgReadIdTable (dec : Bs → Except Unit Bs) (sb : Super)
    (img : Bs) : Except RFail (List Nat) :=
  match newIndirectTableReader dec sb.order img sb.idTableStart 0 with
  | .error e => .error e
  | .ok tr0 => readIdsLoop dec sb.order img sb.idCount tr0 []

/-- `New` (super.go lines 58-96): superblock decode, version gate, root
inode load; the `readIdTable` error is discarded (super.go line 93), so
its outcome is returned alongside without affecting success. -/
def imgNew (dec : Bs → Except Unit Bs) (img : Bs) :
    Except RFail (Super × RIno × Except RFail (List Nat)) :=
  match imgReadAt img 0 96 with
  | none => .error (.err .eof)
  | some head =>
    match unmarshalBinary (bsToList 97 head) with
    | .error e => .error (.err e)
    | .ok sb =>
      if sb.vMajor ≠ 4 ∨ sb.vMinor ≠ 0 then .error (.err .invalidVersion)
      else
        match getInodeRef dec sb img sb.rootInode with
        | .error e => .error e
        | .ok root => .ok (sb, root, imgReadIdTable dec sb img)

/-- `FindInode` from a freshly opened image (super.go lines 198-200):
`New` followed by the walk from the root inode. -/
def imgFindPath (dec : Bs → Except Unit Bs) (img : Bs)
    (name : Bs) (follow : Bool) : Except RFail RIno :=
  match imgNew dec img with
  | .error e => .error e
  | .ok (sb, root, _) => imgFindInodeAt dec sb img root name follow

/-! ### A concrete writer run whose image the reader cannot walk

The writer is configured with compression identifier 2 (LZMA) and no
registered LZMA handler: every compression call fails, so every block
is stored uncompressed and the reader never needs a decompressor.  The
tree is root / { 33 empty files with 240-byte names, A / { f } }: the
8205-byte root directory body pushes `A`'s directory data past the
first 8 KiB metadata block of the directory table, while the written
basic-directory inode always carries `start_block = 0` and an offset
that `newTableReader` then cuts beyond the end of the first block. -/

/-- A compression call through an identifier with no registered
compressor (part_001: `compress` returns an error). -/
def cCompress : Bs → Except Unit Bs := fun _ => .error ()

/-- The matching decompressor, likewise unregistered; an image whose
blocks are all stored uncompressed never consults it. -/
def cDecomp : Bs → Except Unit Bs := fun _ => .error ()

/-- The 240-byte name of the `i`-th file: `b`, byte `100+i`, then 238
`a` bytes. -/
def fname (i : Nat) : Bs :=
  bsCat [bsByte1 98, bsByte1 (100 + i), bsRep 238 97]

/-- Directory entry metadata handed to `Add` for a directory. -/
def dirEntryOf (name : Bs) : MEntry :=
  { name := name, size := 0, perm := 0o755, modTime := 1000,
    uid := 0, gid := 0, kind := .fdir, content := none }

/-- Directory entry metadata handed to `Add` for an empty regular
file backed by an empty source file. -/
def fileEntryOf (name : Bs) : MEntry :=
  { name := name, size := 0, perm := 0o644, modTime := 1000,
    uid := 0, gid := 0, kind := .fregular, content := some bsEmpty }

/-- Add the files `fname 0 … fname (n-1)` in order. -/
def addFiles : Nat → Except Unit WState → Except Unit WState
| _, .error e => .error e
| 0, .ok w => .ok w
| n + 1, .ok w =>
  match addEntry w (fname (33 - (n + 1))) (fileEntryOf (fname (33 - (n + 1)))) with
  | .error e => .error e
  | .ok w2 => addFiles n (.ok w2)

/-- The `Add` sequence (in `fs.WalkDir` order): the root marker, the 33
long-named files, `A`, and `A/f`. -/
def cWriter : Except Unit WState :=
  match addFiles 33
      (addEntry (newWriter 131072 2 1000) (bsByte1 46) (dirEntryOf (bsByte1 46))) with
  | .error e => .error e
  | .ok w =>
    match addEntry w (bsByte1 65) (dirEntryOf (bsByte1 65)) with
    | .error e => .error e
    | .ok w2 =>
      addEntry w2 (bsCat [bsByte1 65, bsByte1 47, bsByte1 102])
        (fileEntryOf (bsByte1 102))

/-- The finalized writer state. -/
def cFinal : Except Unit WState :=
  match cWriter with
  | .error e => .error e
  | .ok w => finalize cCompress w

/-- The bytes of the produced image (empty only if the writer failed,
which the counterexample theorem rules out). -/
def cImage : Bs :=
  match cFinal with
  | .ok w => w.buf
  | .error _ => bsEmpty

/-- Did an `Except` computation succeed? -/
def exceptOk {ε α : Type} : Except ε α → Bool
| .ok _ => true
| .error _ => false

end SquashFS

deriving instance DecidableEq for Except

namespace SquashFS

/-- A valid 96-byte little-endian superblock header: magic "hsqs",
block size 4096 with log 12, version 4.0. -/
def hdOK : List Nat :=
  [104, 115, 113, 115] ++ List.replicate 8 0 ++ [0, 16, 0, 0] ++
  List.replicate 6 0 ++ [12, 0] ++ List.replicate 4 0 ++ [4, 0] ++
  List.replicate 66 0

/-- The superblock `hdOK` decodes to. -/
def sOK : Super := mkSuper .le hdOK

/-- As `hdOK` but with major version 5. -/
def hdBadV : List Nat :=
  [104, 115, 113, 115] ++ List.replicate 8 0 ++ [0, 16, 0, 0] ++
  List.replicate 6 0 ++ [12, 0] ++ List.replicate 4 0 ++ [5, 0] ++
  List.replicate 66 0

/-- The superblock `hdBadV` decodes to. -/
def sBadV : Super := mkSuper .le hdBadV

/-- A filesystem with an absolutely-targeted symlink: root (0) holds
directory entry `a` (1), a symlink to "/x". -/
def fsAbs : MFS :=
  [⟨1, [([97], 1), ([98], 2)], []⟩,
   ⟨3, [], [47, 120]⟩,
   ⟨1, [([99], 3)], []⟩,
   ⟨2, [], []⟩]

/-- A `ReadAt` environment with 4096-byte blocks, no fragment and no
data reads (only sparse blocks are touched). -/
def envW : RdEnv := ⟨4096, .error (), fun _ => false, fun _ => .error ()⟩

/-- A sparse 10-byte regular file: one block entry 0 (a hole), no
fragment. -/
def inoW : RdIno := ⟨2, 10, 0, [0]⟩

/-- A sorted directory index: entries "b", "d", "m". -/
def idxW : List DirIdxE := [⟨0, 0, [98]⟩, ⟨10, 0, [100]⟩, ⟨20, 0, [109]⟩]

/-- A directory stream yielding entries "d" and "g" wherever it is
anchored. -/
def streamW : Option DirIdxE → List (List Nat × Nat) :=
  fun _ => [([100], 7), ([103], 9)]

end SquashFS

namespace SquashFS

/-!
# Theorems

One theorem per claim of the specification audit, preceded by helper
lemmas; helper lemmas never mention a claim theorem.
-/

/-- C10: `GetUid`/`GetGid` are not total: with the index equal to the
ID-table length the guard `len(idTable) >= int(idx)` passes and
`idTable[idx]` panics (modelled as `none`) instead of returning 0; an
in-range index returns the entry and a larger index returns 0 — so the
claim's "return 0 for any out-of-range index, including one equal to
the table's length" is exactly what the code fails to do at the
boundary. -/
theorem getUid_getGid_panic_at_table_length :
    getUid [5] 1 = none ∧ getGid [7] 1 = none ∧
    getUid [5] 0 = some 5 ∧ getUid [5] 2 = some 0 ∧
    getGid [7] 0 = some 7 ∧ getGid [7] 2 = some 0 := by
  refine ⟨by decide, by decide, by decide, by decide, by decide, by decide⟩

set_option maxRecDepth 40000 in
/-- C2: the resolver's single redirect budget of 40 covers both final
and intermediate symlink components: a final-component chain of depth
40 resolves and depth 41 fails with too-many-symlinks
(`follow = true`), and likewise an intermediate-component chain with
`follow = false`. -/
theorem findInodeAt_symlink_budget :
    findInodeAt (chainFinal 40) true 0 [129] = some (.ok 41) ∧
    findInodeAt (chainFinal 41) true 0 [129] = some (.error .tooManySymlinks) ∧
    findInodeAt (chainInter 40) false 0 [129, 47, 102] = some (.ok 42) ∧
    findInodeAt (chainInter 41) false 0 [129, 47, 102] =
      some (.error .tooManySymlinks) := by
  refine ⟨by decide, by decide, by decide, by decide⟩

set_option maxRecDepth 40000 in
/-- C3 counterexample: `b` in directory `a` is a symlink to the
relative target "c", and both `a` and the root contain a file `c`
(nodes 4 and 2).  Resolving "a/b" with `followSymlinks` returns the
ROOT's `c` (node 2): the walk resumes from the resolver's `parent`
variable, not from `a`, the directory containing the symlink — so for
a final component the claimed "continues from the parent directory of
the symlink" is false. -/
theorem final_symlink_resumes_at_grandparent :
    findInodeAt fsC3 true 0 [97, 47, 98] = some (.ok 2) ∧
    findInodeAt fsC3 true 0 [97, 47, 98] ≠ some (.ok 4) := by
  refine ⟨by decide, by decide⟩

set_option maxRecDepth 40000 in
/-- C1: the writer emits images its own reader cannot walk once the
directory table exceeds one 8 KiB metadata block, so the round-trip
claim fails.  A tree of 33 empty files with 240-byte names plus `A/f`
is built through `Add` and finalized successfully (first conjunct);
opening the image and looking up `A` succeeds and exhibits the broken
layout (basic-directory inode with `start_block = 0` but decompressed
offset 8205 > 8192, second conjunct); looking up the added path `A/f`
panics in `newTableReader` (`buf[8205:]` on an 8192-byte block) instead
of returning the file (third conjunct).  The failure is independent of
compression: the directory offset is computed before compression and
a decompressed metadata block never exceeds 8192 bytes. -/
theorem writer_reader_roundtrip_fails :
    exceptOk cFinal = true ∧
    (imgFindPath cDecomp cImage (bsByte1 65) true).map
      (fun i => (i.typ, i.offset, i.startBlock, i.size)) = .ok (1, 8205, 0, 21) ∧
    imgFindPath cDecomp cImage (bsCat [bsByte1 65, bsByte1 47, bsByte1 102]) true
      = .error .panicked := by
  refine ⟨by decide, by decide, by decide⟩

/-- C4 counterexample: a directory reader whose limited stream has 1
byte remaining (with stream data available) returns unexpected-EOF
from the header read, not the end-of-directory EOF the claim's
"remaining ≤ 3" wording demands; the code's check is `N == 3`
exactly. -/
theorem nextfull_remaining_one_not_eof :
    nextfull .le ⟨[0, 0, 0, 0], 1, 0, 0, 0⟩ ≠ .error .eof ∧
    nextfull .le ⟨[0, 0, 0, 0], 1, 0, 0, 0⟩ = .error .unexpectedEOF := by
  refine ⟨by decide, by decide⟩

/-- C4 amended: all remaining budgets ≤ 3 of the limited directory
stream, with their exact outcomes.  Budget 3 is the explicit
end-of-directory check and budget 0 surfaces as EOF from the first
field read over the exhausted limit; budget 2 between entries (entry
counter nonzero, stream data left) also ends in EOF, because the
2-byte offset read succeeds and the following int16 read finds the
limit exhausted; but budget 1 with stream data available, and budget 2
at a block-header boundary (entry counter zero), are short reads:
unexpected-EOF, not the end-of-directory signal. -/
theorem nextfull_small_budget_outcomes (o : SqOrder) (st : DirRState) :
    (st.n = 3 → nextfull o st = .error .eof) ∧
    (st.n = 0 → nextfull o st = .error .eof) ∧
    (st.n = 2 → st.count ≠ 0 → 2 ≤ st.data.length →
      nextfull o st = .error .eof) ∧
    (st.n = 1 → st.data ≠ [] → nextfull o st = .error .unexpectedEOF) ∧
    (st.n = 2 → st.count = 0 → st.data ≠ [] →
      nextfull o st = .error .unexpectedEOF) := by
  rcases st with ⟨data, n, count, sB, iN⟩
  refine ⟨?_, ?_, ?_, ?_, ?_⟩
  · intro h3
    simp only at h3
    subst h3
    rfl
  · intro h0
    simp only at h0
    subst h0
    by_cases hc : count = 0 <;>
      simp [nextfull, hc, dirReadHeader, limReadFull]
  · intro h2 hc hlen
    simp only at h2 hc hlen
    subst h2
    have hmin : min 2 data.length = 2 := Nat.min_eq_left hlen
    simp [nextfull, hc, limReadFull, hmin]
  · intro h1 hne
    simp only at h1 hne
    subst h1
    have hlen : 1 ≤ data.length := List.length_pos.mpr hne
    have hmin : min 1 data.length = 1 := Nat.min_eq_left hlen
    by_cases hc : count = 0 <;>
      simp [nextfull, hc, dirReadHeader, limReadFull, hmin]
  · intro h2 hc hne
    simp only at h2 hc hne
    subst h2
    have hlen : 1 ≤ data.length := List.length_pos.mpr hne
    have hm0 : ¬ min 2 data.length = 0 := by omega
    have hm4 : min 2 data.length < 4 := by omega
    simp [nextfull, hc, dirReadHeader, limReadFull, hm0, hm4]

/-- Witness for the C4 amended theorem at concrete reader states, one
per budget case: 3 and 0 give EOF, 2 mid-entry gives EOF, 1 with data
gives unexpected-EOF, 2 at a header boundary gives unexpected-EOF. -/
theorem nextfull_small_budget_outcomes_witness :
    nextfull .le ⟨[9, 9, 9, 9], 3, 5, 0, 0⟩ = .error .eof ∧
    nextfull .le ⟨[9, 9, 9, 9], 0, 0, 0, 0⟩ = .error .eof ∧
    nextfull .le ⟨[0, 0, 0, 0], 2, 5, 0, 0⟩ = .error .eof ∧
    nextfull .le ⟨[0, 0, 0, 0], 1, 5, 0, 0⟩ = .error .unexpectedEOF ∧
    nextfull .le ⟨[0, 0, 0, 0], 2, 0, 0, 0⟩ = .error .unexpectedEOF :=
  ⟨(nextfull_small_budget_outcomes .le ⟨[9, 9, 9, 9], 3, 5, 0, 0⟩).1 rfl,
   (nextfull_small_budget_outcomes .le ⟨[9, 9, 9, 9], 0, 0, 0, 0⟩).2.1 rfl,
   (nextfull_small_budget_outcomes .le ⟨[0, 0, 0, 0], 2, 5, 0, 0⟩).2.2.1 rfl
     (by decide) (by decide),
   (nextfull_small_budget_outcomes .le ⟨[0, 0, 0, 0], 1, 5, 0, 0⟩).2.2.2.1 rfl
     (by decide),
   (nextfull_small_budget_outcomes .le ⟨[0, 0, 0, 0], 2, 0, 0, 0⟩).2.2.2.2 rfl rfl
     (by decide)⟩

/-- C5: superblock decoding succeeds only under the header invariants:
an `ok` result implies a 96-byte input, magic 0x73717368, the
`1 << BlockLog == BlockSize` invariant (uint32 arithmetic) and the
byte order selected by "hsqs"/"sqsh"; every failure is `ErrInvalidFile`
or `ErrInvalidSuper`; and `New` rejects any decoded version other than
4.0 with `ErrInvalidVersion`. -/
theorem unmarshal_superblock_invariants (d : List Nat) (s : Super) :
    (unmarshalBinary d = .ok s →
      d.length = 96 ∧ s.magic = 0x73717368 ∧
      (1 <<< s.blockLog) % 2 ^ 32 = s.blockSize ∧
      (d.take 4 = [104, 115, 113, 115] → s.order = .le) ∧
      (d.take 4 = [115, 113, 115, 104] → s.order = .be)) ∧
    (∀ e, unmarshalBinary d = .error e → e = .invalidFile ∨ e = .invalidSuper) ∧
    (unmarshalBinary d = .ok s → s.vMajor ≠ 4 ∨ s.vMinor ≠ 0 →
      newVersionGate d = .error .invalidVersion) := by
  refine ⟨?_, ?_, ?_⟩
  · intro h
    simp only [unmarshalBinary] at h
    repeat' split at h
    all_goals simp_all [mkSuper]
    all_goals subst h
    all_goals simp_all
  · intro e h
    simp only [unmarshalBinary] at h
    repeat' split at h
    all_goals simp_all
  · intro h hv
    simp only [newVersionGate, h]
    simp [hv]

/-- Witness for C5: a valid header decodes with all invariants, and a
header with major version 5 is rejected by the `New` version gate. -/
theorem unmarshal_superblock_invariants_witness :
    (hdOK.length = 96 ∧ sOK.magic = 0x73717368 ∧
     (1 <<< sOK.blockLog) % 2 ^ 32 = sOK.blockSize ∧
     (hdOK.take 4 = [104, 115, 113, 115] → sOK.order = .le) ∧
     (hdOK.take 4 = [115, 113, 115, 104] → sOK.order = .be)) ∧
    newVersionGate hdBadV = .error .invalidVersion :=
  ⟨(unmarshal_superblock_invariants hdOK sOK).1 (by decide),
   (unmarshal_superblock_invariants hdBadV sBadV).2.2 (by decide) (by decide)⟩

/-- The floor-plus-remainder form of the block count equals the
ceiling `(size + bs - 1) / bs`. -/
theorem ceil_div_helper (bs size : Nat) (h : 0 < bs) :
    (if size % bs ≠ 0 then size / bs + 1 else size / bs) = (size + bs - 1) / bs := by
  have hb1 : (1 : Nat) ≤ bs := h
  by_cases hm : size % bs = 0
  · have hc : ¬ size % bs ≠ 0 := by simp [hm]
    rw [if_neg hc]
    obtain ⟨q, hq⟩ : ∃ q, size = bs * q :=
      ⟨size / bs, (Nat.mul_div_cancel' (Nat.dvd_of_mod_eq_zero hm)).symm⟩
    subst hq
    have hlt1 : bs - 1 < bs := by omega
    rw [Nat.mul_div_cancel_left _ h, Nat.add_sub_assoc hb1, Nat.mul_add_div h,
      Nat.div_eq_of_lt hlt1]
    omega
  · rw [if_pos hm]
    obtain ⟨q, r, hr, h1, hqr⟩ : ∃ q r, r < bs ∧ 1 ≤ r ∧ size = bs * q + r :=
      ⟨size / bs, size % bs, Nat.mod_lt _ h, Nat.one_le_iff_ne_zero.mpr hm,
       (Nat.div_add_mod size bs).symm⟩
    subst hqr
    have hle : (1 : Nat) ≤ r + bs := by omega
    have hr1 : r + bs - 1 = r - 1 + bs := by omega
    have hlt2 : r - 1 < bs := by omega
    rw [Nat.mul_add_div h, Nat.div_eq_of_lt hr, Nat.add_zero, Nat.add_assoc,
      Nat.add_sub_assoc hle, Nat.mul_add_div h, hr1, Nat.add_div_right _ h,
      Nat.div_eq_of_lt hlt2]

/-- C6: with no fragment (`fragBlock = 0xffffffff`) the decoded block
list has exactly `⌈size / blockSize⌉` entries, all read from the
stream; with a fragment it has `⌊size / blockSize⌋` entries read from
the stream followed by one appended 0xffffffff sentinel that never
comes from the stream. -/
theorem fileBlockList_shape (bs size frag : Nat) (disk : List Nat)
    (hbs : 0 < bs) (hlen : fileBlockCount bs size frag ≤ disk.length) :
    (frag = 0xffffffff →
      fileBlockCount bs size frag = (size + bs - 1) / bs ∧
      fileBlockList bs size frag disk = some (disk.take ((size + bs - 1) / bs))) ∧
    (frag ≠ 0xffffffff →
      fileBlockCount bs size frag = size / bs ∧
      fileBlockList bs size frag disk =
        some (disk.take (size / bs) ++ [0xffffffff])) := by
  have hno : ¬ disk.length < fileBlockCount bs size frag := by omega
  constructor
  · intro hf
    have hcnt : fileBlockCount bs size frag = (size + bs - 1) / bs := by
      rw [← ceil_div_helper bs size hbs]
      simp [fileBlockCount, hf]
    have hnf : ¬ frag ≠ 0xffffffff := by simp [hf]
    refine ⟨hcnt, ?_⟩
    rw [← hcnt]
    simp only [fileBlockList]
    rw [if_neg hno, if_neg hnf]
  · intro hf
    have hcnt : fileBlockCount bs size frag = size / bs := by
      simp [fileBlockCount, hf]
    refine ⟨hcnt, ?_⟩
    simp only [fileBlockList]
    rw [if_neg hno, if_pos hf, hcnt]

/-- Witness for C6: block size 4; a 10-byte file without fragment reads
3 entries, a 10-byte file with fragment index 7 reads 2 entries and
appends the sentinel. -/
theorem fileBlockList_shape_witness :
    (fileBlockCount 4 10 0xffffffff = (10 + 4 - 1) / 4 ∧
     fileBlockList 4 10 0xffffffff [1, 2, 3, 4] =
       some ([1, 2, 3, 4].take ((10 + 4 - 1) / 4))) ∧
    (fileBlockCount 4 10 7 = 10 / 4 ∧
     fileBlockList 4 10 7 [1, 2, 3] =
       some ([1, 2, 3].take (10 / 4) ++ [0xffffffff])) :=
  ⟨(fileBlockList_shape 4 10 0xffffffff [1, 2, 3, 4] (by decide) (by decide)).1 rfl,
   (fileBlockList_shape 4 10 7 [1, 2, 3] (by decide) (by decide)).2 (by decide)⟩

/-- The copy loop returns at most the destination length on top of the
bytes already copied. -/
theorem readAtLoop_bound (env : RdEnv) (ino : RdIno) :
    ∀ (fuel block offset plen acc n : Nat) (e : Option SqErr),
      readAtLoop env ino fuel block offset plen acc = .ret n e →
      n ≤ acc + plen := by
  intro fuel
  induction fuel with
  | zero =>
    intro block offset plen acc n e h
    simp [readAtLoop] at h
  | succ f ih =>
    intro block offset plen acc n e h
    simp only [readAtLoop] at h
    split at h
    · simp at h
    · split at h
      · simp only [RdOutcome.ret.injEq] at h
        omega
      · simp at h
      · split at h
        · simp at h
        · split at h
          · next hl =>
            simp only [RdOutcome.ret.injEq] at h
            omega
          · next hl =>
            have hrec := ih _ _ _ _ _ _ h
            omega

/-- C7: `ReadAt` on a file inode returns 0 bytes and EOF for any offset
at or past the file size (including the empty file at offset 0), and
for an offset below the size the destination clamp bounds every
returned byte count by `size - offset`. -/
theorem readAt_eof_and_bound (env : RdEnv) (ino : RdIno) (plen off n : Nat)
    (e : Option SqErr) (htyp : ino.typ = 2 ∨ ino.typ = 9) :
    (ino.size ≤ off → readAt env ino plen off = .ret 0 (some .eof)) ∧
    (off < ino.size → readAt env ino plen off = .ret n e → n ≤ ino.size - off) := by
  constructor
  · intro hle
    rcases htyp with h | h <;> simp [readAt, h, hle]
  · intro hlt h
    have hno : ¬ off ≥ ino.size := by omega
    simp only [readAt] at h
    rw [if_pos htyp, if_neg hno] at h
    have hb := readAtLoop_bound env ino (ino.blocks.length + 1)
      (off / env.blockSize) (off % env.blockSize) _ 0 n e h
    split at hb <;> omega

/-- Witness for C7: a sparse 10-byte file; reading at offset 10 gives
EOF with 0 bytes, reading 100 bytes at offset 4 returns 6 ≤ 10 - 4. -/
theorem readAt_eof_and_bound_witness :
    readAt envW inoW 5 10 = .ret 0 (some .eof) ∧ (6 : Nat) ≤ 10 - 4 :=
  ⟨(readAt_eof_and_bound envW inoW 5 10 0 (some .eof) (Or.inl rfl)).1 (by decide),
   (readAt_eof_and_bound envW inoW 100 4 6 none (Or.inl rfl)).2 (by decide) (by decide)⟩

/-- If no two consecutive recomputations from iteration 1 on agree, the
inode-position loop reaches iteration 9 and fails. -/
theorem convergeAux_error_of_nc {α : Type} (step : α → α) (beq : α → α → Bool)
    (init : α)
    (hnc : ∀ i, 1 ≤ i → i ≤ 9 → beq (step^[i] init) (step^[i + 1] init) = false) :
    ∀ fuel iteration, iteration ≤ 9 → fuel + iteration = 10 →
      convergeAux step beq fuel iteration (step^[iteration] init) = .error () := by
  intro fuel
  induction fuel with
  | zero => intro it h9 hf; omega
  | succ f ih =>
    intro it h9 hf
    have hnext : step (step^[it] init) = step^[it + 1] init :=
      (Function.iterate_succ_apply' step it init).symm
    simp only [convergeAux, hnext]
    rcases Nat.eq_zero_or_pos it with h0 | h0
    · subst h0
      have hg : ¬ ((0 : Nat) > 0 ∧ beq (step^[0] init) (step^[0 + 1] init) = true) := by
        simp
      rw [if_neg hg, if_neg (by decide : ¬ (0 : Nat) = 9)]
      simpa using ih 1 (by omega) (by omega)
    · have hb := hnc it h0 h9
      have hg : ¬ (it > 0 ∧ beq (step^[it] init) (step^[it + 1] init) = true) := by
        rw [hb]
        simp
      rw [if_neg hg]
      by_cases h9' : it = 9
      · rw [if_pos h9']
      · rw [if_neg h9']
        exact ih (it + 1) (by omega) (by omega)

/-- A successful exit of the inode-position loop is the break at some
iteration 1–9 where two consecutive recomputations agree. -/
theorem convergeAux_ok_iterate {α : Type} (step : α → α) (beq : α → α → Bool)
    (init : α) :
    ∀ fuel iteration x, iteration ≤ 9 → fuel + iteration = 10 →
      convergeAux step beq fuel iteration (step^[iteration] init) = .ok x →
      ∃ i, 1 ≤ i ∧ i ≤ 9 ∧ beq (step^[i] init) (step^[i + 1] init) = true ∧
        x = step^[i + 1] init := by
  intro fuel
  induction fuel with
  | zero => intro it x h9 hf; omega
  | succ f ih =>
    intro it x h9 hf h
    have hnext : step (step^[it] init) = step^[it + 1] init :=
      (Function.iterate_succ_apply' step it init).symm
    simp only [convergeAux, hnext] at h
    split at h
    · next hg =>
      injection h with hx
      exact ⟨it, by omega, h9, hg.2, hx.symm⟩
    · split at h
      · simp at h
      · next h9' =>
        exact ih (it + 1) x (by omega) (by omega) h

/-- With block positions never comparing equal and every rebuild
succeeding, the block-position loop reaches iteration 9 and fails with
the convergence error. -/
theorem dirConvergeAux_error {σ β ε : Type} (g : σ → σ × β) (beq : β → β → Bool)
    (reb : σ → β → Except ε σ)
    (hbeq : ∀ a b, beq a b = false)
    (hreb : ∀ s b, ∃ s2, reb s b = .ok s2) :
    ∀ fuel dirIter st bp, dirIter ≤ 9 → fuel + dirIter = 10 →
      dirConvergeAux g beq reb fuel dirIter st bp = .error none := by
  intro fuel
  induction fuel with
  | zero => intro it st bp h9 hf; omega
  | succ f ih =>
    intro it st bp h9 hf
    simp only [dirConvergeAux]
    have hg : ¬ (it > 0 ∧ (match bp with
        | some old => beq old (g st).2
        | none => false) = true) := by
      rcases bp with _ | old <;> simp [hbeq]
    rw [if_neg hg]
    by_cases h9' : it = 9
    · rw [if_pos h9']
    · rw [if_neg h9']
      obtain ⟨s2, hs2⟩ := hreb (g st).1 (g st).2
      simp only [hs2]
      exact ih (it + 1) s2 (some (g st).2) (by omega) (by omega)

/-- A directory whose established nonzero size changed makes the
rebuild size check fail. -/
theorem rebuildSizeCheck_error_mem :
    ∀ (l : List (Nat × Nat)) (oldSize newSize : Nat),
      (oldSize, newSize) ∈ l → oldSize ≠ 0 → oldSize ≠ newSize →
      rebuildSizeCheck l = .error () := by
  intro l
  induction l with
  | nil => intro o n h; simp at h
  | cons p rest ih =>
    obtain ⟨a, b⟩ := p
    intro o n hmem h0 hne
    rcases List.mem_cons.mp hmem with heq | hmem
    · injection heq with h1 h2
      subst h1
      subst h2
      simp only [rebuildSizeCheck]
      rw [if_pos ⟨h0, hne⟩]
    · simp only [rebuildSizeCheck]
      by_cases hc : a ≠ 0 ∧ a ≠ b
      · rw [if_pos hc]
      · rw [if_neg hc]
        exact ih o n hmem h0 hne

/-- C9: the writer's two layout loops are bounded to 10 iterations:
the inode-position loop fails (instead of iterating further) when no
two consecutive recomputations agree, and any success is the fixed
point reached by some iteration 1–9; the block-position loop
likewise fails after 10 iterations when positions never stabilize and
every rebuild succeeds; and a directory whose established (nonzero)
serialized size changes in a later rebuild is reported as an error. -/
theorem writer_layout_loops_bounded {α σ β ε : Type}
    (step : α → α) (beq : α → α → Bool) (init x : α)
    (g : σ → σ × β) (dbeq : β → β → Bool) (reb : σ → β → Except ε σ) (st : σ)
    (l : List (Nat × Nat)) (oldSize newSize : Nat) :
    ((∀ i, 1 ≤ i → i ≤ 9 → beq (step^[i] init) (step^[i + 1] init) = false) →
      converge step beq init = .error ()) ∧
    (converge step beq init = .ok x →
      ∃ i, 1 ≤ i ∧ i ≤ 9 ∧ beq (step^[i] init) (step^[i + 1] init) = true ∧
        x = step^[i + 1] init) ∧
    ((∀ a b, dbeq a b = false) → (∀ s b, ∃ s2, reb s b = .ok s2) →
      dirConverge g dbeq reb st = .error none) ∧
    ((oldSize, newSize) ∈ l → oldSize ≠ 0 → oldSize ≠ newSize →
      rebuildSizeCheck l = .error ()) := by
  refine ⟨?_, ?_, ?_, ?_⟩
  · intro hnc
    simpa [converge] using
      convergeAux_error_of_nc step beq init hnc 10 0 (by omega) (by omega)
  · intro h
    have h0 : convergeAux step beq 10 0 (step^[0] init) = .ok x := by
      simpa [converge] using h
    exact convergeAux_ok_iterate step beq init 10 0 x (by omega) (by omega) h0
  · intro hbeq hreb
    exact dirConvergeAux_error g dbeq reb hbeq hreb 10 0 st none (by omega) (by omega)
  · exact rebuildSizeCheck_error_mem l oldSize newSize

/-- Witness for C9: a never-converging step errors; an
always-converging step exits at the first allowed break; a
never-stabilizing block-position loop with succeeding rebuilds errors;
an established size 3 changed to 4 errors. -/
theorem writer_layout_loops_bounded_witness :
    converge Nat.succ (fun _ _ => false) 0 = .error () ∧
    (∃ i, 1 ≤ i ∧ i ≤ 9 ∧ true = true ∧ (2 : Nat) = Nat.succ^[i + 1] 0) ∧
    dirConverge (fun s : Nat => (s, s)) (fun _ _ => false)
      (fun (s : Nat) (_ : Nat) => (Except.ok s : Except Unit Nat)) 5 = .error none ∧
    rebuildSizeCheck [(3, 4)] = .error () := by
  refine ⟨?_, ?_, ?_, ?_⟩
  · exact (writer_layout_loops_bounded Nat.succ (fun _ _ => false) 0 0
      (fun s : Nat => (s, s)) (fun _ _ => false)
      (fun (s : Nat) (_ : Nat) => (Except.ok s : Except Unit Nat)) 5 [] 0 0).1
      (fun i h1 h2 => rfl)
  · exact (writer_layout_loops_bounded Nat.succ (fun _ _ => true) 0 2
      (fun s : Nat => (s, s)) (fun _ _ => false)
      (fun (s : Nat) (_ : Nat) => (Except.ok s : Except Unit Nat)) 5 [] 0 0).2.1
      (by decide)
  · exact (writer_layout_loops_bounded Nat.succ (fun _ _ => false) 0 0
      (fun s : Nat => (s, s)) (fun _ _ => false)
      (fun (s : Nat) (_ : Nat) => (Except.ok s : Except Unit Nat)) 5 [] 0 0).2.2.1
      (fun a b => rfl) (fun s b => ⟨s, rfl⟩)
  · exact (writer_layout_loops_bounded Nat.succ (fun _ _ => false) 0 0
      (fun s : Nat => (s, s)) (fun _ _ => false)
      (fun (s : Nat) (_ : Nat) => (Except.ok s : Except Unit Nat)) 5 [(3, 4)] 3 4).2.2.2
      (by decide) (by decide) (by decide)

/-- Byte-lexicographic order pieces together: a target below `b` and a
`c` not below `b` keep the target below `c`. -/
theorem lexLtB_lt_of_lt_of_nlt :
    ∀ a b c : List Nat, lexLtB a b = true → lexLtB c b = false → lexLtB a c = true := by
  intro a
  induction a with
  | nil =>
    intro b c hab hcb
    cases b with
    | nil => simp [lexLtB] at hab
    | cons y ys =>
      cases c with
      | nil => simp [lexLtB] at hcb
      | cons z zs => simp [lexLtB]
  | cons x xs ih =>
    intro b c hab hcb
    cases b with
    | nil => simp [lexLtB] at hab
    | cons y ys =>
      cases c with
      | nil => simp [lexLtB] at hcb
      | cons z zs =>
        simp only [lexLtB] at hab hcb ⊢
        by_cases h1 : x < y
        · by_cases h2 : z < y
          · simp [h2] at hcb
          · by_cases h3 : y < z
            · have hxz : x < z := Nat.lt_trans h1 h3
              simp [hxz]
            · have hyz : y = z := by omega
              subst hyz
              simp [h1]
        · by_cases h1' : y < x
          · simp [h1, h1'] at hab
          · have hxy : x = y := by omega
            subst hxy
            simp at hab
            by_cases h2 : z < x
            · simp [h2] at hcb
            · by_cases h3 : x < z
              · simp [h3]
              · have hzx : z = x := by omega
                subst hzx
                simp at hcb
                simp
                exact ih ys zs hab hcb

/-- Over a sorted index, the break-at-first-greater scan keeps exactly
the last entry whose name is ≤ the target (the last entry the filter
keeps), or the accumulator when every entry is greater. -/
theorem selectIndex_filter (nm : List Nat) :
    ∀ (idx : List DirIdxE) (di : Option DirIdxE),
      List.Pairwise (fun a b => lexLtB b.name a.name = false) idx →
      selectIndex nm idx di =
        match (idx.filter (fun t => ! lexLtB nm t.name)).getLast? with
        | some x => some x
        | none => di := by
  intro idx
  induction idx with
  | nil => intro di hp; simp [selectIndex]
  | cons t rest ih =>
    intro di hp
    have hrel := (List.pairwise_cons.mp hp).1
    have hp2 := (List.pairwise_cons.mp hp).2
    cases hb : lexLtB nm t.name with
    | true =>
      have hfe : rest.filter (fun u => ! lexLtB nm u.name) = [] := by
        rw [List.filter_eq_nil_iff]
        intro u hu
        simp [lexLtB_lt_of_lt_of_nlt nm t.name u.name hb (hrel u hu)]
      simp [selectIndex, hb, List.filter_cons, hfe]
    | false =>
      have hstep : selectIndex nm (t :: rest) di = selectIndex nm rest (some t) := by
        simp [selectIndex, hb]
      have hcons : (t :: rest).filter (fun u => ! lexLtB nm u.name)
          = t :: rest.filter (fun u => ! lexLtB nm u.name) := by
        simp [List.filter_cons, hb]
      rcases hfr : rest.filter (fun u => ! lexLtB nm u.name) with _ | ⟨h2, t2⟩
      · rw [hstep, ih (some t) hp2, hcons, hfr]
        simp
      · rw [hstep, ih (some t) hp2, hcons, hfr, List.getLast?_cons_cons]
        rcases hgl : (h2 :: t2).getLast? with _ | x
        · simp at hgl
        · rfl

/-- Entries lexicographically before the target do not stop an indexed
scan; the first entry past the target proves absence. -/
theorem scanEntries_notExist_past (nm : List Nat) (e : List Nat × Nat)
    (rest : List (List Nat × Nat)) :
    ∀ pre : List (List Nat × Nat),
      (∀ x ∈ pre, lexLtB nm x.1 = false ∧ nm ≠ x.1) →
      lexLtB nm e.1 = true →
      scanEntries true nm (pre ++ e :: rest) = .error .notExist := by
  intro pre
  induction pre with
  | nil =>
    intro hpre hgt
    obtain ⟨en, r⟩ := e
    simp only [List.nil_append, scanEntries]
    rw [if_pos ⟨trivial, hgt⟩]
  | cons p pre ih =>
    obtain ⟨xn, xr⟩ := p
    intro hpre hgt
    have hx1 : lexLtB nm xn = false := (hpre (xn, xr) (by simp)).1
    have hx2 : ¬ nm = xn := (hpre (xn, xr) (by simp)).2
    have h1 : ¬ (True ∧ lexLtB nm xn = true) := by simp [hx1]
    simp only [List.cons_append, scanEntries]
    rw [if_neg h1, if_neg hx2]
    exact ih (fun y hy => hpre y (List.mem_cons_of_mem _ hy)) hgt

/-- C8: looking up a name in a directory seeks with the last index
entry whose name is ≤ the target under raw byte comparison (over a
sorted index the selection is the last filtered entry), then scans the
re-anchored stream linearly; with an index present, reaching an entry
past the target fails with not-exist; with an empty index (basic
directories) the scan starts from the directory start. -/
theorem lookup_index_seek_and_scan (selfRef typ : Nat) (nm : List Nat)
    (idx : List DirIdxE) (stream : Option DirIdxE → List (List Nat × Nat))
    (pre rest : List (List Nat × Nat)) (e : List Nat × Nat) :
    (List.Pairwise (fun a b => lexLtB b.name a.name = false) idx →
      selectIndex nm idx none =
        match (idx.filter (fun t => ! lexLtB nm t.name)).getLast? with
        | some x => some x
        | none => none) ∧
    (nm ≠ [46] → typ = 1 ∨ typ = 8 →
      lookupWithIndex selfRef typ idx stream nm =
        scanEntries (selectIndex nm idx none).isSome nm
          (stream (selectIndex nm idx none))) ∧
    ((∀ x ∈ pre, lexLtB nm x.1 = false ∧ nm ≠ x.1) → lexLtB nm e.1 = true →
      scanEntries true nm (pre ++ e :: rest) = .error .notExist) ∧
    (nm ≠ [46] → typ = 1 ∨ typ = 8 →
      lookupWithIndex selfRef typ [] stream nm = scanEntries false nm (stream none)) := by
  refine ⟨?_, ?_, ?_, ?_⟩
  · intro hp
    exact selectIndex_filter nm idx none hp
  · intro hdot hty
    simp [lookupWithIndex, hdot, hty]
  · exact scanEntries_notExist_past nm e rest pre
  · intro hdot hty
    simp [lookupWithIndex, hdot, hty, selectIndex]

/-- Witness for C8 at a sorted three-entry index and target "g". -/
theorem lookup_index_seek_and_scan_witness :
    (selectIndex [103] idxW none =
      match (idxW.filter (fun t => ! lexLtB [103] t.name)).getLast? with
      | some x => some x
      | none => none) ∧
    lookupWithIndex 99 1 idxW streamW [103] =
      scanEntries (selectIndex [103] idxW none).isSome [103]
        (streamW (selectIndex [103] idxW none)) ∧
    scanEntries true [103] ([([97], 1)] ++ ([110], 5) :: [([120], 6)]) =
      .error .notExist ∧
    lookupWithIndex 99 1 [] streamW [103] = scanEntries false [103] (streamW none) := by
  obtain ⟨h1, h2, h3, h4⟩ := lookup_index_seek_and_scan 99 1 [103] idxW streamW
    [([97], 1)] [([120], 6)] ([110], 5)
  exact ⟨h1 (by decide), h2 (by decide) (by decide), h3 (by decide) (by decide),
    h4 (by decide) (by decide)⟩

/-- C3 (amended): when resolution meets a symlink with a non-empty
relative target, the target is prepended to the remaining path
(keeping the slash that followed the component) with one step of the
resolver; a non-final symlink resumes at `cur`, the directory holding
the symlink, while a final symlink under `follow` resumes at the
resolver's `parent` variable — the directory the walk entered `cur`
from, not the symlink's own parent in general; an empty or absolute
target fails with the invalid error in both positions. -/
theorem symlink_target_resume_semantics (fs : MFS) (follow : Bool)
    (fuel cur parent redirects pos t : Nat) (name sym : List Nat) :
    (name.findIdx? (fun b => b = 47) = some (pos + 1) →
     typeIsDir (typeOf fs cur) = true →
     mlookup fs cur (name.take (pos + 1)) = .ok t →
     typeIsSymlink (typeOf fs t) = true →
     redirects ≠ 0 →
     readlinkM fs t = .ok sym →
     ¬ (sym = [] ∨ sym.head? = some 47) →
     findLoop fs follow (fuel + 1) cur parent name redirects =
       findLoop fs follow fuel cur parent (sym ++ name.drop (pos + 1))
         (redirects - 1)) ∧
    (name.findIdx? (fun b => b = 47) = none → name ≠ [] →
     mlookup fs cur name = .ok t →
     typeIsSymlink (typeOf fs t) = true →
     redirects ≠ 0 →
     readlinkM fs t = .ok sym →
     ¬ (sym = [] ∨ sym.head? = some 47) →
     findLoop fs true (fuel + 1) cur parent name redirects =
       findLoop fs true fuel parent parent sym (redirects - 1)) ∧
    (name.findIdx? (fun b => b = 47) = some (pos + 1) →
     typeIsDir (typeOf fs cur) = true →
     mlookup fs cur (name.take (pos + 1)) = .ok t →
     typeIsSymlink (typeOf fs t) = true →
     redirects ≠ 0 →
     readlinkM fs t = .ok sym →
     (sym = [] ∨ sym.head? = some 47) →
     findLoop fs follow (fuel + 1) cur parent name redirects =
       some (.error .invalid)) ∧
    (name.findIdx? (fun b => b = 47) = none → name ≠ [] →
     mlookup fs cur name = .ok t →
     typeIsSymlink (typeOf fs t) = true →
     redirects ≠ 0 →
     readlinkM fs t = .ok sym →
     (sym = [] ∨ sym.head? = some 47) →
     findLoop fs true (fuel + 1) cur parent name redirects =
       some (.error .invalid)) := by
  refine ⟨?_, ?_, ?_, ?_⟩
  · intro hpos hdir hlk hsym hred hrl hne
    have hnil : ¬ name = [] := by
      intro h0
      rw [h0] at hpos
      simp at hpos
    simp only [findLoop, hpos, hlk, hrl]
    simp [hnil, hdir, hsym, hred, hne]
  · intro hpos hnil hlk hsym hred hrl hne
    simp only [findLoop, hpos, hlk, hrl]
    simp [hnil, hsym, hred, hne]
  · intro hpos hdir hlk hsym hred hrl habs
    have hnil : ¬ name = [] := by
      intro h0
      rw [h0] at hpos
      simp at hpos
    simp only [findLoop, hpos, hlk, hrl]
    simp [hnil, hdir, hsym, hred, habs]
  · intro hpos hnil hlk hsym hred hrl habs
    simp only [findLoop, hpos, hlk, hrl]
    simp [hnil, hsym, hred, habs]

/-- Witness for the C3 amended theorem: a non-final symlink step in a
one-link chain, the final-symlink step of the re-anchoring instance,
and the absolute-target failures. -/
theorem symlink_target_resume_semantics_witness :
    findLoop (chainInter 1) false 8 0 0 [129, 47, 102] 40 =
      findLoop (chainInter 1) false 7 0 0 ([100] ++ [47, 102]) 39 ∧
    findLoop fsC3 true 6 1 0 [98] 40 = findLoop fsC3 true 5 0 0 [99] 39 ∧
    findLoop fsAbs false 8 0 0 [97, 47, 98] 40 = some (.error .invalid) ∧
    findLoop fsAbs true 6 0 0 [97] 40 = some (.error .invalid) := by
  refine ⟨?_, ?_, ?_, ?_⟩
  · exact (symlink_target_resume_semantics (chainInter 1) false 7 0 0 40 0 1
      [129, 47, 102] [100]).1 (by decide) (by decide) (by decide) (by decide)
      (by decide) (by decide) (by decide)
  · exact (symlink_target_resume_semantics fsC3 true 5 1 0 40 0 3 [98] [99]).2.1
      (by decide) (by decide) (by decide) (by decide) (by decide) (by decide)
      (by decide)
  · exact (symlink_target_resume_semantics fsAbs false 7 0 0 40 0 1 [97, 47, 98]
      [47, 120]).2.2.1 (by decide) (by decide) (by decide) (by decide) (by decide)
      (by decide) (by decide)
  · exact (symlink_target_resume_semantics fsAbs true 5 0 0 40 0 1 [97]
      [47, 120]).2.2.2 (by decide) (by decide) (by decide) (by decide) (by decide)
      (by decide) (by decide)

end SquashFS
